import Mathlib

/-! # yubikeyotp: a verification development

A shallow embedding of the protocol engine of the `yubikeyotp` package
(request signing, response parsing and verification, the failover
transport and the orchestrating `Authenticate` call), followed by theorems
about it.

Conventions of the embedding.

* A Go `string` and a Go `[]byte` are both a list of bytes, and a byte is a
  natural number below 256 (`GoString`, `Bytes`).  String constants of the
  source are written `str "..."`.
* A Go `error` result is an `Option Error`, `none` being `nil`.
* A run-time panic is an explicit outcome (`Except Panic`).
* Mutable state of the authenticator (the endpoint cursor) is passed
  explicitly; what a call does to the outside world is recorded in a trace
  of `Event`s.
* The Go standard library functions the package calls (`crypto/sha1`,
  `crypto/hmac`, `encoding/base64`, `net/url`, `strconv`, `strings`,
  `bufio`) are modelled after their documented behaviour.
-/

set_option maxRecDepth 100000

namespace yubikeyotp

/-! ## Bytes and strings -/

/-- A Go byte slice. -/
abbrev Bytes := List Nat

/-- A Go string: an immutable sequence of bytes. -/
abbrev GoString := List Nat

/-- The bytes of an ASCII string constant of the source. -/
def str (s : String) : GoString := s.data.map Char.toNat

/-! ## Standard library: SHA-1, HMAC, base64 -/

namespace stdlib

/-- Addition of 32-bit words. -/
def add32 (x y : Nat) : Nat := (x + y) % 2 ^ 32

/-- Left rotation of a 32-bit word. -/
def rotl32 (x n : Nat) : Nat := ((x <<< n) % 2 ^ 32) ||| (x >>> (32 - n))

/-- Complement of a 32-bit word. -/
def not32 (x : Nat) : Nat := x ^^^ 0xFFFFFFFF

/-- Big-endian bytes of a number, `n` bytes wide. -/
def bigEndian : Nat → Nat → Bytes
  | 0, _ => []
  | n + 1, x => (x >>> (8 * n)) % 256 :: bigEndian n x

/-- SHA-1 padding: a `0x80` byte, zeros up to 56 modulo 64, and the bit
length of the message as a 64-bit big-endian number. -/
def sha1Pad (msg : Bytes) : Bytes :=
  msg ++ [0x80] ++ List.replicate ((119 - msg.length % 64) % 64) 0
    ++ bigEndian 8 (8 * msg.length)

/-- Reads big-endian 32-bit words, four bytes at a time. -/
def toWords : Bytes → List Nat
  | b0 :: b1 :: b2 :: b3 :: rest =>
      (b0 % 256 * 2 ^ 24 + b1 % 256 * 2 ^ 16 + b2 % 256 * 2 ^ 8 + b3 % 256) :: toWords rest
  | _ => []

/-- Cuts a list of words into blocks of sixteen. -/
def toBlocks : Nat → List Nat → List (List Nat)
  | 0, _ => []
  | fuel + 1, ws => if ws.length < 16 then [] else ws.take 16 :: toBlocks fuel (ws.drop 16)

/-- Extends the sixteen words of a block to the eighty words of the
message schedule; `w` holds the schedule so far, most recent word first. -/
def schedule : Nat → List Nat → List Nat
  | 0, w => w.reverse
  | n + 1, w =>
      schedule n
        (rotl32 (w.getD 2 0 ^^^ w.getD 7 0 ^^^ w.getD 13 0 ^^^ w.getD 15 0) 1 :: w)

/-- The five chaining words of SHA-1. -/
structure Sha1State where
  a : Nat
  b : Nat
  c : Nat
  d : Nat
  e : Nat
deriving DecidableEq, Repr

/-- One of the eighty rounds. -/
def round (i : Nat) (s : Sha1State) (w : Nat) : Sha1State :=
  let f :=
    if i < 20 then (s.b &&& s.c) ||| (not32 s.b &&& s.d)
    else if i < 40 then s.b ^^^ s.c ^^^ s.d
    else if i < 60 then (s.b &&& s.c) ||| (s.b &&& s.d) ||| (s.c &&& s.d)
    else s.b ^^^ s.c ^^^ s.d
  let k :=
    if i < 20 then 0x5A827999
    else if i < 40 then 0x6ED9EBA1
    else if i < 60 then 0x8F1BBCDC
    else 0xCA62C1D6
  let t := add32 (add32 (add32 (add32 (rotl32 s.a 5) f) s.e) k) w
  { a := t, b := s.a, c := rotl32 s.b 30, d := s.c, e := s.d }

/-- Runs the rounds over the message schedule. -/
def rounds : Nat → Sha1State → List Nat → Sha1State
  | _, s, [] => s
  | i, s, w :: ws => rounds (i + 1) (round i s w) ws

/-- The compression function: one block into the chaining state. -/
def compress (h : Sha1State) (block : List Nat) : Sha1State :=
  let s := rounds 0 h (schedule 64 block.reverse)
  { a := add32 h.a s.a, b := add32 h.b s.b, c := add32 h.c s.c,
    d := add32 h.d s.d, e := add32 h.e s.e }

/-- SHA-1 (RFC 3174): the 20-byte digest of a message. -/
def sha1 (msg : Bytes) : Bytes :=
  let ws := toWords (sha1Pad msg)
  let h := (toBlocks ws.length ws).foldl compress
    { a := 0x67452301, b := 0xEFCDAB89, c := 0x98BADCFE, d := 0x10325476, e := 0xC3D2E1F0 }
  bigEndian 4 h.a ++ bigEndian 4 h.b ++ bigEndian 4 h.c ++ bigEndian 4 h.d ++ bigEndian 4 h.e

/-- HMAC (RFC 2104) over SHA-1: `hmac.New(sha1.New, key)`, one or more
`Write`s whose concatenation is `msg`, then `Sum(nil)`. -/
def hmacSha1 (key msg : Bytes) : Bytes :=
  let k := if key.length > 64 then sha1 key else key
  let k := k ++ List.replicate (64 - k.length) 0
  sha1 (k.map (· ^^^ 0x5c) ++ sha1 (k.map (· ^^^ 0x36) ++ msg))

/-- The alphabet of the standard base64 encoding (RFC 4648). -/
def base64Alphabet : GoString :=
  str "ABCDEFGHIJKLMNOPQRSTUVWXYZabcdefghijklmnopqrstuvwxyz0123456789+/"

/-- The character of a 6-bit value. -/
def base64Char (v : Nat) : Nat := base64Alphabet.getD (v % 64) 0

/-- Standard padded base64: `base64.StdEncoding.EncodeToString`. -/
def base64Encode : Bytes → GoString
  | b0 :: b1 :: b2 :: rest =>
      base64Char (b0 / 4) :: base64Char (b0 % 4 * 16 + b1 / 16)
        :: base64Char (b1 % 16 * 4 + b2 / 64) :: base64Char (b2 % 64) :: base64Encode rest
  | [b0, b1] =>
      [base64Char (b0 / 4), base64Char (b0 % 4 * 16 + b1 / 16), base64Char (b1 % 16 * 4), 61]
  | [b0] => [base64Char (b0 / 4), base64Char (b0 % 4 * 16), 61, 61]
  | [] => []

/-- The value of a base64 character (the decode map of the standard
encoding); `none` for a byte outside the alphabet. -/
def base64Value (c : Nat) : Option Nat :=
  if 65 ≤ c ∧ c ≤ 90 then some (c - 65)
  else if 97 ≤ c ∧ c ≤ 122 then some (c - 71)
  else if 48 ≤ c ∧ c ≤ 57 then some (c + 4)
  else if c = 43 then some 62
  else if c = 47 then some 63
  else none

/-- Decodes groups of four characters; the last group may end in one or two
padding characters.  `none` is a `base64.CorruptInputError`. -/
def decodeQuanta : GoString → Option Bytes
  | c0 :: c1 :: c2 :: c3 :: rest =>
      match base64Value c0, base64Value c1 with
      | some v0, some v1 =>
          if c2 = 61 ∧ c3 = 61 ∧ rest = [] then some [(v0 * 4 + v1 / 16) % 256]
          else
            match base64Value c2 with
            | none => none
            | some v2 =>
                if c3 = 61 ∧ rest = [] then
                  some [(v0 * 4 + v1 / 16) % 256, (v1 * 16 + v2 / 4) % 256]
                else
                  match base64Value c3, decodeQuanta rest with
                  | some v3, some bs =>
                      some ((v0 * 4 + v1 / 16) % 256 :: (v1 * 16 + v2 / 4) % 256
                        :: (v2 * 64 + v3) % 256 :: bs)
                  | _, _ => none
      | _, _ => none
  | [] => some []
  | _ => none

/-- Standard padded base64 decoding, `base64.StdEncoding.DecodeString`: carriage
returns and line feeds are skipped, everything else must be whole groups
of the alphabet with correct padding. -/
def base64Decode (s : GoString) : Option Bytes :=
  decodeQuanta (s.filter (fun c => c ≠ 10 ∧ c ≠ 13))

/-- Upper-case hexadecimal digit. -/
def upperHex (v : Nat) : Nat := (str "0123456789ABCDEF").getD (v % 16) 0

/-- Whether `url.QueryEscape` leaves a byte as it is: letters, digits and
the four marks `-`, `_`, `.`, `~`. -/
def unreserved (c : Nat) : Bool :=
  (97 ≤ c ∧ c ≤ 122) ∨ (65 ≤ c ∧ c ≤ 90) ∨ (48 ≤ c ∧ c ≤ 57)
    ∨ c = 45 ∨ c = 95 ∨ c = 46 ∨ c = 126

/-- Query-component escaping, `url.QueryEscape`: a space becomes `+`, a byte
that is not unreserved becomes `%XX`. -/
def QueryEscape : GoString → GoString
  | [] => []
  | c :: cs =>
      if unreserved c then c :: QueryEscape cs
      else if c = 32 then 43 :: QueryEscape cs
      else 37 :: upperHex (c / 16) :: upperHex c :: QueryEscape cs

/-- Conversion of a 64-bit `uint` to `int`: values from 2^63 on wrap to
negative numbers. -/
def toInt (n : Nat) : Int :=
  if n % 2 ^ 64 < 2 ^ 63 then ((n % 2 ^ 64 : Nat) : Int) else ((n % 2 ^ 64 : Nat) : Int) - 2 ^ 64

/-- Decimal rendering of an `int`: `strconv.Itoa`. -/
def Itoa (i : Int) : GoString :=
  if i < 0 then 45 :: (Nat.toDigits 10 (-i).toNat).map Char.toNat
  else (Nat.toDigits 10 i.toNat).map Char.toNat

/-- Multiplication of two `time.Duration` values (signed 64-bit integers),
wrapping on overflow. -/
def mulDuration (x y : Int) : Int := (x * y + 2 ^ 63) % 2 ^ 64 - 2 ^ 63

/-- Splitting around the first separator byte, `strings.Cut` with a one-byte
separator: the text before it, the text after it, and whether it was
found; without a separator the whole string is the text before. -/
def Cut (s : GoString) (sep : Nat) : GoString × GoString × Bool :=
  match s with
  | [] => ([], [], false)
  | c :: cs =>
      if c = sep then ([], cs, true)
      else ((c :: (Cut cs sep).1), (Cut cs sep).2.1, (Cut cs sep).2.2)

/-- The lines of a text as `bufio.ScanLines` cuts them, before the carriage
return is dropped: the bytes between line feeds, and a last unterminated
line when it is not empty. -/
def rawLines : Bytes → List Bytes
  | [] => []
  | c :: cs =>
      if c = 10 then [] :: rawLines cs
      else
        match rawLines cs with
        | [] => [[c]]
        | l :: ls => (c :: l) :: ls

/-- Removes one trailing carriage return: `dropCR` of `bufio`. -/
def dropCR (data : Bytes) : Bytes :=
  if data.getLast? = some 13 then data.dropLast else data

/-- The largest buffer a `bufio.Scanner` allocates: `bufio.MaxScanTokenSize`. -/
def MaxScanTokenSize : Nat := 64 * 1024

end stdlib

/-! ## errors.go -/

/-- Failures the service reports in the status field. -/
inductive RequestError
  | ErrRequestUnknownFailure
  | ErrRequestInvalidFormat
  | ErrRequestReplayed
  | ErrRequestBadSignature
  | ErrRequestMissingParameter
  | ErrRequestClientDoesNotExist
  | ErrRequestForbidden
  | ErrRequestDeadlineExceeded
  | ErrRequestBackendError
deriving DecidableEq, Repr

/-- Failures found in the reply itself. -/
inductive ResponseError
  | ErrResponseUnknownFailure
  | ErrResponseBadSignature
deriving DecidableEq, Repr

/-- Values of the Go `error` interface that occur in the package. -/
inductive Error
  /-- A `RequestError`. -/
  | request (e : RequestError)
  /-- A `ResponseError`. -/
  | response (e : ResponseError)
  /-- The error `parseResponse` builds for an unexpected field. -/
  | unexpectedField (key value : GoString)
  /-- The scanner error `bufio.ErrTooLong`. -/
  | tokenTooLong
  /-- A `base64.CorruptInputError`. -/
  | corruptInput
  /-- An error that comes from outside the package: the network client, the
  context, the body reader, the nonce generator, `http.NewRequest`. -/
  | external (msg : GoString)
  /-- The error `fmt.Errorf(msg + ": %w", err)`. -/
  | wrapped (msg : GoString) (err : Error)
  /-- The error `errors.New(msg)`. -/
  | plain (msg : GoString)
  /-- The error `WithEndpoints` builds for an endpoint that was already
  added. -/
  | alreadyAdded (endpoint : GoString)
deriving DecidableEq, Repr

deriving instance DecidableEq for Except

/-- A run-time panic. -/
inductive Panic
  /-- Indexing a slice out of range. -/
  | indexOutOfRange (index length : Nat)
  /-- Dereferencing a nil pointer. -/
  | nilDereference
  /-- Indexing with a negative number. -/
  | negativeIndex (index : Int)
deriving DecidableEq, Repr

/-! ## response.go -/

/-- The parsed reply of the service. -/
structure response where
  ReceivedOneTimePassword : GoString := []
  SignatureInBase64 : GoString := []
  ReceivedNonce : GoString := []
  SessionCounter : GoString := []
  SessionUse : GoString := []
  Status : GoString := []
  SyncFactor : GoString := []
  RequestTimestamp : GoString := []
  ActivationTimestamp : GoString := []
deriving DecidableEq, Repr

/-- The bytes `encodeForVerification` writes, in the order it writes them. -/
def response.encodeForVerification (r : response) : Bytes :=
  str "nonce=" ++ r.ReceivedNonce
    ++ str "&otp=" ++ r.ReceivedOneTimePassword
    ++ str "&sessioncounter=" ++ r.SessionCounter
    ++ str "&sessionuse=" ++ r.SessionUse
    ++ str "&sl=" ++ r.SyncFactor
    ++ str "&status=" ++ r.Status
    ++ str "&t=" ++ r.RequestTimestamp
    ++ str "&timestamp=" ++ r.ActivationTimestamp

/-- Checks the status and the signature of a reply; `none` when it is
verified. -/
def response.Verify (r : response) (secret : Bytes) : Option Error :=
  if r.Status = str "OK" then
    let signature := stdlib.hmacSha1 secret r.encodeForVerification
    if stdlib.base64Encode signature ≠ r.SignatureInBase64 then
      some (.response .ErrResponseBadSignature)
    else none
  else if r.Status = str "BAD_OTP" then some (.request .ErrRequestInvalidFormat)
  else if r.Status = str "REPLAYED_OTP" ∨ r.Status = str "REPLAYED_REQUEST" then
    some (.request .ErrRequestReplayed)
  else if r.Status = str "BAD_SIGNATURE" then some (.request .ErrRequestBadSignature)
  else if r.Status = str "MISSING_PARAMETER" then some (.request .ErrRequestMissingParameter)
  else if r.Status = str "NO_SUCH_CLIENT" then some (.request .ErrRequestClientDoesNotExist)
  else if r.Status = str "OPERATION_NOT_ALLOWED" then some (.request .ErrRequestForbidden)
  else if r.Status = str "NOT_ENOUGH_ANSWERS" then some (.request .ErrRequestDeadlineExceeded)
  else if r.Status = str "BACKEND_ERROR" then some (.request .ErrRequestBackendError)
  else some (.request .ErrRequestUnknownFailure)

/-- An `io.Reader` that is read to its end: the bytes it delivers, and the
error that ends the stream when it is not `io.EOF`. -/
structure Reader where
  data : Bytes
  err : Option Error := none
deriving DecidableEq, Repr

/-- The body of the scanning loop of `parseResponse` for one line of text. -/
def parseLine (r : response) (text : GoString) : Except Error response :=
  let key := (stdlib.Cut text 61).1
  let value := (stdlib.Cut text 61).2.1
  if key = str "h" then .ok { r with SignatureInBase64 := value }
  else if key = str "t" then .ok { r with RequestTimestamp := value }
  else if key = str "timestamp" then .ok { r with ActivationTimestamp := value }
  else if key = str "otp" then .ok { r with ReceivedOneTimePassword := value }
  else if key = str "nonce" then .ok { r with ReceivedNonce := value }
  else if key = str "sessioncounter" then .ok { r with SessionCounter := value }
  else if key = str "sessionuse" then .ok { r with SessionUse := value }
  else if key = str "status" then .ok { r with Status := value }
  else if key = str "sl" then .ok { r with SyncFactor := value }
  else if value ≠ [] then .error (.unexpectedField key value)
  else .ok r

/-- The scanning loop of `parseResponse` over the raw lines still to come;
`readErr` is what `scanner.Err()` reports once the input is exhausted.  A
line that does not fit the scanner's buffer stops the scan with
`bufio.ErrTooLong`. -/
def parseLoop (readErr : Option Error) (r : response) : List Bytes → Except Error response
  | [] =>
      match readErr with
      | some e => .error e
      | none => .ok r
  | raw :: rest =>
      if stdlib.MaxScanTokenSize ≤ raw.length then .error .tokenTooLong
      else
        match parseLine r (stdlib.dropCR raw) with
        | .error e => .error e
        | .ok r1 => parseLoop readErr r1 rest

/-- Parses the reply body into a record. -/
def parseResponse (source : Reader) : Except Error response :=
  parseLoop source.err {} (stdlib.rawLines source.data)

/-! ## nonce.go, request.go -/

/-- A request identifier: an array of exactly 40 bytes. -/
structure Nonce where
  bytes : Bytes
  size : bytes.length = 40

/-- The nonce as a string: `string(n[:])`. -/
def Nonce.String (n : Nonce) : GoString := n.bytes

/-- The parameters of one authentication request; `ClientID` is a 64-bit
`uint`. -/
structure Request where
  OneTimePassword : GoString
  ClientID : Nat
  ClientSecret : GoString
deriving DecidableEq, Repr

/-! ## yubikeyotp.go, endpoints.go -/

/-- The official endpoints of the service. -/
def DefaultEndpoints : List GoString :=
  [str "https://api.yubico.com/wsapi/2.0/verify",
   str "https://api2.yubico.com/wsapi/2.0/verify",
   str "https://api3.yubico.com/wsapi/2.0/verify",
   str "https://api4.yubico.com/wsapi/2.0/verify",
   str "https://api5.yubico.com/wsapi/2.0/verify"]

/-- The authenticator.  `retryLimit` is a `uint8` converted to `int`, so it is
never negative; the two durations are signed 64-bit numbers of nanoseconds;
`currentEndpointIndex` is only ever incremented or reset to zero.  The client
pool and the nonce generator are part of the `World` a call runs in. -/
structure Authenticator where
  retryLimit : Nat
  retryBackoffDelay : Int
  retryBackoffMultiplier : Int
  syncFactor : GoString
  syncTimeLimit : GoString
  currentEndpointIndex : Nat
  endpoints : List GoString
deriving DecidableEq, Repr

/-- The reply of an HTTP exchange that completed: status code and body. -/
structure HttpResponse where
  StatusCode : Nat
  Body : Reader
deriving DecidableEq, Repr

/-- What one call of `Authenticate` meets outside the package. -/
structure World where
  /-- The result of `a.nonceGenerator.GenerateNonce()`. -/
  generateNonce : Except Error Nonce
  /-- The error of `http.NewRequest("GET", url, nil)`, if any. -/
  newRequest : GoString → Option Error
  /-- The result of `client.Do` for the attempt with the given number
  (counted from zero) and URL. -/
  doGet : Nat → GoString → Except Error HttpResponse
  /-- The race after the failed attempt with the given number: `some e` when
  `ctx.Done()` is ready before the timer, `e` being `ctx.Err()`; `none` when
  the timer fires first. -/
  ctxDone : Nat → Option Error

/-- What a call does to the outside world. -/
inductive Event
  /-- The nonce generator was called. -/
  | nonce
  /-- A GET was issued to the URL. -/
  | get (url : GoString)
  /-- The backoff timer ran for the delay, in nanoseconds, and fired. -/
  | sleep (delay : Int)
  /-- The endpoint cursor was rotated and now holds the index. -/
  | rotate (index : Nat)
deriving DecidableEq, Repr

/-- The endpoint under the cursor. -/
def Authenticator.GetCurrentEndpoint (a : Authenticator) : Except Panic GoString :=
  match a.endpoints[a.currentEndpointIndex]? with
  | some endpoint => .ok endpoint
  | none => .error (.indexOutOfRange a.currentEndpointIndex a.endpoints.length)

/-- Moves the cursor on and returns the endpoint under it, together with the
authenticator as the call leaves it. -/
def Authenticator.rotateEndpoint (a : Authenticator) :
    Authenticator × Except Panic GoString :=
  let a1 := { a with currentEndpointIndex := a.currentEndpointIndex + 1 }
  let total := DefaultEndpoints.length
  let a2 := if a1.currentEndpointIndex ≥ total then { a1 with currentEndpointIndex := 0 } else a1
  (a2, a2.GetCurrentEndpoint)

/-- The outcome of `sendQuery`: the two results or a panic, the authenticator
after the call, and what the call did. -/
structure Sent where
  ret : Except Panic (Option HttpResponse × Option Error)
  auth : Authenticator
  trace : List Event
deriving DecidableEq, Repr

/-- The loop of `sendQuery`: `remaining` iterations to go, `attempt` counting
the iterations done.  `err` is the named result of `sendQuery`; the loop
body declares a variable `err` of its own, so the named result is not
assigned in the loop and is returned as it is after the last iteration. -/
def Authenticator.sendLoop (w : World) (query : GoString) (err : Option Error) :
    (remaining : Nat) → (attempt : Nat) → Authenticator → (delay : Int) →
    (endpoint : GoString) → Sent
  | 0, _, a, _, _ => { ret := .ok (none, err), auth := a, trace := [] }
  | remaining + 1, attempt, a, delay, endpoint =>
      match w.newRequest (endpoint ++ str "?" ++ query) with
      | some e => { ret := .ok (none, some e), auth := a, trace := [] }
      | none =>
          match w.doGet attempt (endpoint ++ str "?" ++ query) with
          | .ok response =>
              { ret := .ok (some response, none), auth := a,
                trace := [.get (endpoint ++ str "?" ++ query)] }
          | .error _ =>
              match w.ctxDone attempt with
              | some ctxErr =>
                  { ret := .ok (none, some ctxErr), auth := a,
                    trace := [.get (endpoint ++ str "?" ++ query)] }
              | none =>
                  let delay1 := stdlib.mulDuration delay a.retryBackoffMultiplier
                  match a.rotateEndpoint with
                  | (a1, .error p) =>
                      { ret := .error p, auth := a1,
                        trace := [.get (endpoint ++ str "?" ++ query), .sleep delay] }
                  | (a1, .ok endpoint1) =>
                      let rest := sendLoop w query err remaining (attempt + 1) a1 delay1 endpoint1
                      { rest with
                        trace := .get (endpoint ++ str "?" ++ query) :: .sleep delay
                          :: .rotate a1.currentEndpointIndex :: rest.trace }

/-- Sends the query to the current endpoint, retrying on the next ones. -/
def Authenticator.sendQuery (a : Authenticator) (w : World) (query : GoString) : Sent :=
  let err : Option Error := none
  let delay := a.retryBackoffDelay
  match a.GetCurrentEndpoint with
  | .error p => { ret := .error p, auth := a, trace := [] }
  | .ok endpoint => Authenticator.sendLoop w query err a.retryLimit 0 a delay endpoint

/-- The signed query string of a request. -/
def Authenticator.buildSignedRequestQuery (a : Authenticator) (oneTimePassword : GoString)
    (clientID : Nat) (secret : Bytes) (nonce : Nonce) : GoString :=
  let b : Bytes := []
  let b := b ++ str "id="
  let b := b ++ stdlib.Itoa (stdlib.toInt clientID)
  let b := b ++ str "&nonce="
  let b := b ++ stdlib.QueryEscape nonce.String
  let b := b ++ str "&otp="
  let b := b ++ stdlib.QueryEscape oneTimePassword
  let b := b ++ str "&sl="
  let b := b ++ a.syncFactor
  let b := b ++ str "&timeout="
  let b := b ++ a.syncTimeLimit
  let b := b ++ str "&timestamp=1"
  let signature := stdlib.hmacSha1 secret b
  let b := b ++ str "&h="
  let b := b ++ stdlib.base64Encode signature
  b

/-- The outcome of `Authenticate`: the returned error or a panic, the
authenticator after the call, and what the call did. -/
structure Authenticated where
  ret : Except Panic (Option Error)
  auth : Authenticator
  trace : List Event
deriving DecidableEq, Repr

/-- Verifies a one-time password with the service. -/
def Authenticator.Authenticate (a : Authenticator) (w : World) (r : Request) : Authenticated :=
  match stdlib.base64Decode r.ClientSecret with
  | none =>
      { ret := .ok (some (.wrapped (str "invalid client secret") .corruptInput)),
        auth := a, trace := [] }
  | some secret =>
      match w.generateNonce with
      | .error e => { ret := .ok (some e), auth := a, trace := [.nonce] }
      | .ok nonce =>
          let sent := a.sendQuery w
            (a.buildSignedRequestQuery r.OneTimePassword r.ClientID secret nonce)
          match sent.ret with
          | .error p => { ret := .error p, auth := sent.auth, trace := .nonce :: sent.trace }
          | .ok (_, some e) =>
              { ret := .ok (some (.wrapped (str "network client failed") e)),
                auth := sent.auth, trace := .nonce :: sent.trace }
          | .ok (none, none) =>
              { ret := .error .nilDereference, auth := sent.auth, trace := .nonce :: sent.trace }
          | .ok (some httpResponse, none) =>
              match parseResponse httpResponse.Body with
              | .error e =>
                  { ret := .ok (some (.wrapped (str "could not parse response") e)),
                    auth := sent.auth, trace := .nonce :: sent.trace }
              | .ok response =>
                  match response.Verify secret with
                  | some e =>
                      { ret := .ok (some (.wrapped (str "could not verify response") e)),
                        auth := sent.auth, trace := .nonce :: sent.trace }
                  | none => { ret := .ok none, auth := sent.auth, trace := .nonce :: sent.trace }

/-- Whether an event is a GET. -/
def Event.isGet : Event → Bool
  | .get _ => true
  | _ => false

/-- Whether an event is a backoff sleep. -/
def Event.isSleep : Event → Bool
  | .sleep _ => true
  | _ => false

/-- Whether an event is a rotation of the endpoint cursor. -/
def Event.isRotate : Event → Bool
  | .rotate _ => true
  | _ => false

/-- A world in which every GET fails with a transport error and the context
is never cancelled. -/
def failingWorld : World :=
  { generateNonce := .ok ⟨List.replicate 40 110, List.length_replicate 40 110⟩
    newRequest := fun _ => none
    doGet := fun _ _ => .error (.external (str "dial tcp: connection refused"))
    ctxDone := fun _ => none }

/-- A world in which every GET fails and the context is cancelled while the
call waits after the second attempt. -/
def cancellingWorld : World :=
  { failingWorld with
    ctxDone := fun attempt => if attempt = 1 then some (.external (str "context canceled")) else none }

/-- The delays of the backoff sleeps of a trace, in order. -/
def sleepDelays : List Event → List Int
  | [] => []
  | .sleep delay :: rest => delay :: sleepDelays rest
  | _ :: rest => sleepDelays rest

/-- The authenticator after a number of consecutive calls of
`rotateEndpoint`. -/
def Authenticator.rotateTimes : Nat → Authenticator → Authenticator
  | 0, a => a
  | n + 1, a => (Authenticator.rotateTimes n a).rotateEndpoint.1

/-! ## nonce.go: the default generator -/

/-- The characters a nonce is made of. -/
def defaultNonceCharacterSet : GoString :=
  str "abcdefghijklmnopqrstuvwxyzABCDEFGHIJKLMNOPQRSTUVWXYZ0123456789"

/-- The number of characters, as an `int64`. -/
def defaultNonceCharacterSetLength : Int := defaultNonceCharacterSet.length

/-- The number of characters, as a byte. -/
def defaultNonceCharacterSetLengthByte : Nat := defaultNonceCharacterSet.length % 256

/-- Indexing the character set with a signed number: a panic outside the
range. -/
def characterAt (i : Int) : Except Panic Nat :=
  if i < 0 then .error (.negativeIndex i)
  else
    match defaultNonceCharacterSet[i.toNat]? with
    | some c => .ok c
    | none => .error (.indexOutOfRange i.toNat defaultNonceCharacterSet.length)

/-- The array that holds the given forty bytes (missing ones are zero). -/
def Nonce.ofBytes (bs : Bytes) : Nonce :=
  ⟨(bs ++ List.replicate 40 0).take 40, by simp⟩

/-- The outcome of `rand.Read` on the 36 bytes after the time bytes: the
bytes it wrote to the front of the buffer and its error. -/
structure RandomRead where
  bytes : Bytes
  err : Option Error := none
deriving DecidableEq, Repr

/-- The default nonce generator; `now` is `time.Now().UnixNano()`.  Division
and remainder of `int64` truncate toward zero. -/
def cryptoRandNonceGeneratorWithFourLeadingTimeBytes (now : Int) (random : RandomRead) :
    Except Panic (Nonce × Option Error) :=
  let t := now
  match characterAt (t.tmod defaultNonceCharacterSetLength) with
  | .error p => .error p
  | .ok n0 =>
  let t := t.tdiv defaultNonceCharacterSetLength
  match characterAt (t.tmod defaultNonceCharacterSetLength) with
  | .error p => .error p
  | .ok n1 =>
  let t := t.tdiv defaultNonceCharacterSetLength
  match characterAt (t.tmod defaultNonceCharacterSetLength) with
  | .error p => .error p
  | .ok n2 =>
  let t := t.tdiv defaultNonceCharacterSetLength
  match characterAt (t.tmod defaultNonceCharacterSetLength) with
  | .error p => .error p
  | .ok n3 =>
  let buffer := (random.bytes ++ List.replicate 36 0).take 36
  let n := min random.bytes.length 36
  match random.err with
  | some err => .ok (Nonce.ofBytes (n0 :: n1 :: n2 :: n3 :: buffer), some err)
  | none =>
      if n < 40 - 4 then
        .ok (Nonce.ofBytes (n0 :: n1 :: n2 :: n3 :: buffer),
          some (.plain (str "not enough random bytes")))
      else
        .ok (Nonce.ofBytes (n0 :: n1 :: n2 :: n3 ::
          buffer.map (fun b =>
            defaultNonceCharacterSet.getD (b % 256 % defaultNonceCharacterSetLengthByte) 0)),
          none)

/-! ## options.go -/

namespace stdlib

/-- A `float64`: a finite value, given by the number it stands for, one of the
two infinities, or a NaN. -/
inductive Float64
  /-- A finite value. -/
  | finite (value : ℚ)
  /-- Positive infinity. -/
  | posInf
  /-- Negative infinity. -/
  | negInf
  /-- Not a number. -/
  | nan
deriving DecidableEq

/-- The comparison `x <= y` of two `float64`: false when either is a NaN. -/
def Float64.le : Float64 → Float64 → Bool
  | .finite a, .finite b => decide (a ≤ b)
  | .finite _, .posInf => true
  | .finite _, .negInf => false
  | .finite _, .nan => false
  | .posInf, .finite _ => false
  | .posInf, .posInf => true
  | .posInf, .negInf => false
  | .posInf, .nan => false
  | .negInf, .finite _ => true
  | .negInf, .posInf => true
  | .negInf, .negInf => true
  | .negInf, .nan => false
  | .nan, _ => false

/-- The comparison `x > y` of two `float64`: false when either is a NaN. -/
def Float64.gt : Float64 → Float64 → Bool
  | .finite a, .finite b => decide (a > b)
  | .finite _, .posInf => false
  | .finite _, .negInf => true
  | .finite _, .nan => false
  | .posInf, .finite _ => true
  | .posInf, .posInf => false
  | .posInf, .negInf => true
  | .posInf, .nan => false
  | .negInf, .finite _ => false
  | .negInf, .posInf => false
  | .negInf, .negInf => false
  | .negInf, .nan => false
  | .nan, _ => false

end stdlib

/-- The retry policy.  `AttemptLimit` is a `uint8`, the two delays are
durations in nanoseconds, and the multiplier is a `float64`. -/
structure RetryWithBackOff where
  AttemptLimit : Nat
  AttemptDelay : Int
  AttemptDelayLimit : Int
  AttemptDelayMultiplier : stdlib.Float64
deriving DecidableEq

/-- An implementation of the `NonceGenerator` interface, given by what its
`GenerateNonce` returns. -/
structure NonceGenerator where
  GenerateNonce : Except Error Nonce

/-- What a client pool hands out. -/
inductive PoolItem
  /-- A nil value. -/
  | nilValue
  /-- A pointer to an `http.Client`. -/
  | httpClient
  /-- A value of another type. -/
  | other
deriving DecidableEq, Repr

/-- A `sync.Pool`, given by what its `Get` returns. -/
structure ClientPool where
  Get : PoolItem
deriving DecidableEq, Repr

/-- The settings under construction; a nil pointer or interface is `none`. -/
structure options where
  NonceGenerator : Option NonceGenerator := none
  SynchronizationFactor : Option Nat := none
  SynchronizationTimeLimit : Option Nat := none
  Retry : Option RetryWithBackOff := none
  Endpoints : List GoString := []
  ClientPool : Option ClientPool := none

/-- The type `Option` of the source: a function that changes the settings and
may return an error.  The settings it leaves behind are part of the
result. -/
abbrev OptionFunc := options → options × Option Error

namespace stdlib

/-- One second, one millisecond and one minute as durations. -/
def Second : Int := 1000000000

/-- One millisecond as a duration. -/
def Millisecond : Int := 1000000

/-- One minute as a duration. -/
def Minute : Int := 60 * Second

/-- The number of binary digits of a number, less one; `fuel` bounds the
number of halvings. -/
def log2Floor : Nat → Nat → Nat
  | 0, _ => 0
  | fuel + 1, n => if n < 2 then 0 else log2Floor fuel (n / 2) + 1

/-- The `float64` nearest to the fraction `n / d`, ties to even, as a pair of
a mantissa `m` below 2^53 and a binary exponent `e`: the value is `m * 2^e`.
The fractions rounded here are zero or lie in the normal range. -/
def nearestFloat (n d : Nat) : Nat × Int :=
  if n = 0 ∨ d = 0 then (0, 0)
  else
    let e0 : Int := (log2Floor n n : Int) - (log2Floor d d : Int) - 52
    let e : Int :=
      if (if e0 ≤ 0 then n * 2 ^ (-e0).toNat / d else n / (d * 2 ^ e0.toNat)) < 2 ^ 52
      then e0 - 1 else e0
    let a : Nat := if e ≤ 0 then n * 2 ^ (-e).toNat else n
    let b : Nat := if e ≤ 0 then d else d * 2 ^ e.toNat
    let q := a / b
    let r := a % b
    let m := if 2 * r < b then q else if b < 2 * r then q + 1 else if q % 2 = 0 then q else q + 1
    (m, e)

/-- The whole part of a non-negative `float64` given by mantissa and
exponent. -/
def truncFloat (f : Nat × Int) : Nat :=
  if 0 ≤ f.2 then f.1 * 2 ^ f.2.toNat else f.1 / 2 ^ (-f.2).toNat

/-- The whole part of `d.Seconds()`, which is
`float64(d / Second) + float64(d % Second) / 1e9` with both operations
rounded to the nearest `float64`; quotient and remainder carry the sign of
`d`, and rounding is symmetric. -/
def secondsTruncated (d : Int) : Int :=
  let sec := d.natAbs / 1000000000
  let nsec := d.natAbs % 1000000000
  let x := nearestFloat nsec 1000000000
  let sum :=
    if x.2 ≤ 0 then nearestFloat (sec * 2 ^ (-x.2).toNat + x.1) (2 ^ (-x.2).toNat)
    else nearestFloat (sec + x.1 * 2 ^ x.2.toNat) 1
  if d < 0 then -(truncFloat sum : Int) else (truncFloat sum : Int)

/-- The conversion `uint8(d.Seconds())`: truncation toward zero; for a value
outside the range of `uint8` the language leaves the result to the
implementation, and the model follows amd64, where the conversion goes
through a 32-bit integer: the low byte of the whole part when it fits 32
bits, zero otherwise. -/
def secondsAsUint8 (d : Int) : Nat :=
  let t := secondsTruncated d
  if -2 ^ 31 ≤ t ∧ t < 2 ^ 31 then (t % 256).toNat else 0

/-- The conversion `time.Duration(f)` of a `float64`: truncation toward zero;
for a NaN, an infinity or a value outside the range of `int64` the language
leaves the result to the implementation, and the model follows amd64, which
gives the smallest `int64`. -/
def durationOfFloat : Float64 → Int
  | .finite value =>
      if -2 ^ 63 ≤ value.num.tdiv value.den ∧ value.num.tdiv value.den < 2 ^ 63 then
        value.num.tdiv value.den
      else -2 ^ 63
  | _ => -2 ^ 63

/-- The width in bytes of the white-space character (Unicode `White_Space`, in
UTF-8) a string starts with; zero when it starts with none. -/
def leadingSpace : GoString → Nat
  | c :: rest =>
      if c = 9 ∨ c = 10 ∨ c = 11 ∨ c = 12 ∨ c = 13 ∨ c = 32 then 1
      else
        match rest with
        | d :: rest2 =>
            if c = 0xC2 ∧ (d = 0x85 ∨ d = 0xA0) then 2
            else
              match rest2 with
              | e :: _ =>
                  if (c = 0xE1 ∧ d = 0x9A ∧ e = 0x80)
                      ∨ (c = 0xE2 ∧ d = 0x80 ∧
                          ((0x80 ≤ e ∧ e ≤ 0x8A) ∨ e = 0xA8 ∨ e = 0xA9 ∨ e = 0xAF))
                      ∨ (c = 0xE2 ∧ d = 0x81 ∧ e = 0x9F)
                      ∨ (c = 0xE3 ∧ d = 0x80 ∧ e = 0x80) then 3
                  else 0
              | [] => 0
        | [] => 0
  | [] => 0

/-- The width in bytes of the white-space character a string ends with, read
off the reversed string; zero when it ends with none. -/
def trailingSpace : GoString → Nat
  | c :: rest =>
      if c = 9 ∨ c = 10 ∨ c = 11 ∨ c = 12 ∨ c = 13 ∨ c = 32 then 1
      else
        match rest with
        | d :: rest2 =>
            if d = 0xC2 ∧ (c = 0x85 ∨ c = 0xA0) then 2
            else
              match rest2 with
              | e :: _ =>
                  if (e = 0xE1 ∧ d = 0x9A ∧ c = 0x80)
                      ∨ (e = 0xE2 ∧ d = 0x80 ∧
                          ((0x80 ≤ c ∧ c ≤ 0x8A) ∨ c = 0xA8 ∨ c = 0xA9 ∨ c = 0xAF))
                      ∨ (e = 0xE2 ∧ d = 0x81 ∧ c = 0x9F)
                      ∨ (e = 0xE3 ∧ d = 0x80 ∧ c = 0x80) then 3
                  else 0
              | [] => 0
        | [] => 0
  | [] => 0

/-- Drops white space as long as the measure finds some. -/
def dropSpaces (width : GoString → Nat) : Nat → GoString → GoString
  | 0, s => s
  | fuel + 1, s => if width s = 0 then s else dropSpaces width fuel (s.drop (width s))

/-- Removal of leading and trailing white space: `strings.TrimSpace`. -/
def TrimSpace (s : GoString) : GoString :=
  let t := dropSpaces leadingSpace s.length s
  (dropSpaces trailingSpace t.length t.reverse).reverse

end stdlib

/-- Sets the nonce generator after trying it once. -/
def WithNonceGenerator (n : Option NonceGenerator) : OptionFunc := fun o =>
  match n with
  | none => (o, some (.plain (str "nonce generator is nil")))
  | some g =>
      match g.GenerateNonce with
      | .error err => (o, some (.wrapped (str "nonce generator does not work") err))
      | .ok _ => ({ o with NonceGenerator := some g }, none)

/-- Sets the synchronization factor, a `uint8`. -/
def WithSynchronizationFactor (percent : Nat) : OptionFunc := fun o =>
  if percent > 100 then
    (o, some (.plain (str "synchronization factor must be between 0 and 100")))
  else ({ o with SynchronizationFactor := some percent }, none)

/-- Sets the synchronization time limit. -/
def WithSynchronizationTimeLimit (d : Int) : OptionFunc := fun o =>
  let limit := stdlib.secondsAsUint8 d
  if limit > 120 then
    (o, some (.plain (str "synchronization time limit must be between 1 and 120 seconds")))
  else ({ o with SynchronizationTimeLimit := some limit }, none)

/-- Sets the retry strategy. -/
def WithRetryStrategy (r : RetryWithBackOff) : OptionFunc := fun o =>
  if r.AttemptLimit = 0 then
    (o, some (.plain (str "retry limit must be greater than zero")))
  else if r.AttemptDelay ≤ stdlib.Millisecond * 30 then
    (o, some (.plain (str "retry delay must be greater than 30 milliseconds")))
  else if r.AttemptDelay > stdlib.Minute then
    (o, some (.plain (str "retry delay must be less than one minute")))
  else if r.AttemptDelayLimit < r.AttemptDelay then
    (o, some (.plain (str "retry delay limit must be greater than retry delay")))
  else if stdlib.Float64.le r.AttemptDelayMultiplier (.finite 1) then
    (o, some (.plain (str "retry multiplier must be greater than one")))
  else if stdlib.Float64.gt r.AttemptDelayMultiplier (.finite 10) then
    (o, some (.plain (str "retry multiplier must be less than 10")))
  else ({ o with Retry := some r }, none)

/-- The loop of `WithEndpoints` over the endpoints of one call; `existing` is
the list the settings hold when the option runs. -/
def checkEndpoints (existing : List GoString) : List GoString → Option Error
  | [] => none
  | endpoint :: rest =>
      if endpoint = [] then some (.plain (str "endpoint cannot be empty"))
      else if endpoint ≠ stdlib.TrimSpace endpoint then
        some (.plain (str "endpoint cannot contain leading or trailing whitespace"))
      else if endpoint ∈ existing then some (.alreadyAdded endpoint)
      else checkEndpoints existing rest

/-- Adds endpoints to the list of the settings. -/
def WithEndpoints (endpoints : List GoString) : OptionFunc := fun o =>
  if endpoints.length = 0 then (o, some (.plain (str "endpoints list is empty")))
  else
    match checkEndpoints o.Endpoints endpoints with
    | some err => (o, some err)
    | none => ({ o with Endpoints := o.Endpoints ++ endpoints }, none)

/-- Sets the client pool after trying it once. -/
def WithClientPool (pool : Option ClientPool) : OptionFunc := fun o =>
  match pool with
  | none => (o, some (.plain (str "network client pool is nil")))
  | some p =>
      match p.Get with
      | .nilValue => (o, some (.plain (str "client pool returned a nil http.Client")))
      | .other =>
          (o, some (.plain (str "client pool does not contain a reference to an http.Client")))
      | .httpClient => ({ o with ClientPool := some p }, none)

/-- The default generator as a value of the interface; the clock and the
random source are those of the `World` a call runs in, and the value here
stands for the generator itself. -/
def defaultGenerator : NonceGenerator :=
  { GenerateNonce := .ok (Nonce.ofBytes []) }

/-- Sets the default nonce generator when none is set. -/
def defaultNonceGenerator : OptionFunc := fun o =>
  match o.NonceGenerator with
  | some _ => (o, none)
  | none => ({ o with NonceGenerator := some defaultGenerator }, none)

/-- Sets the default synchronization factor when none is set. -/
def defaultSynchronizationFactor : OptionFunc := fun o =>
  match o.SynchronizationFactor with
  | some _ => (o, none)
  | none => WithSynchronizationFactor 100 o

/-- Sets the default synchronization time limit when none is set. -/
def defaultSynchronizationTimeLimit : OptionFunc := fun o =>
  match o.SynchronizationTimeLimit with
  | some _ => (o, none)
  | none => WithSynchronizationTimeLimit (stdlib.Second * 6) o

/-- Sets the default retry strategy when none is set; the multiplier is the
number the constant `1.3` stands for as a `float64`, a little below
thirteen tenths. -/
def defaultRetryWithBackOff : OptionFunc := fun o =>
  match o.Retry with
  | some _ => (o, none)
  | none =>
      WithRetryStrategy
        { AttemptLimit := 3
          AttemptDelay := stdlib.Second * 2
          AttemptDelayLimit := stdlib.Minute
          AttemptDelayMultiplier := .finite (mkRat 5854679515581645 4503599627370496) } o

/-- Sets the default endpoints when the list is empty. -/
def defaultEndpoints : OptionFunc := fun o =>
  if o.Endpoints.length > 0 then (o, none) else WithEndpoints DefaultEndpoints o

/-- Sets the default client pool when none is set. -/
def defaultClientPool : OptionFunc := fun o =>
  match o.ClientPool with
  | some _ => (o, none)
  | none => WithClientPool (some { Get := .httpClient }) o

/-- The loop of `New` over the options: the settings after the last option, or
the error of the first option that fails. -/
def applyOptions (o : options) : List OptionFunc → Except Error options
  | [] => .ok o
  | option :: rest =>
      match option o with
      | (_, some err) =>
          .error (.wrapped (str "unable to initialize Yubi Key authenticator") err)
      | (o1, none) => applyOptions o1 rest

/-- Creates an authenticator; a nil pointer among the settings it reads would
be a panic. -/
def New (withOptions : List OptionFunc) : Except Panic (Except Error Authenticator) :=
  match applyOptions {} (withOptions ++
      [defaultNonceGenerator, defaultSynchronizationFactor, defaultSynchronizationTimeLimit,
       defaultEndpoints, defaultRetryWithBackOff, defaultClientPool]) with
  | .error err => .ok (.error err)
  | .ok o =>
      match o.Retry, o.SynchronizationFactor, o.SynchronizationTimeLimit with
      | some retry, some factor, some limit =>
          .ok (.ok
            { retryLimit := retry.AttemptLimit
              retryBackoffDelay := retry.AttemptDelay
              retryBackoffMultiplier := stdlib.durationOfFloat retry.AttemptDelayMultiplier
              syncFactor := stdlib.Itoa factor
              syncTimeLimit := stdlib.Itoa limit
              currentEndpointIndex := 0
              endpoints := o.Endpoints })
      | _, _, _ => .error .nilDereference

/-! ## Specification-side definitions -/

/-- The status table of the specification: each status the service can
report, other than `OK`, with the error kind it stands for. -/
def statusTable : List (GoString × RequestError) :=
  [(str "BAD_OTP", .ErrRequestInvalidFormat),
   (str "REPLAYED_OTP", .ErrRequestReplayed),
   (str "REPLAYED_REQUEST", .ErrRequestReplayed),
   (str "BAD_SIGNATURE", .ErrRequestBadSignature),
   (str "MISSING_PARAMETER", .ErrRequestMissingParameter),
   (str "NO_SUCH_CLIENT", .ErrRequestClientDoesNotExist),
   (str "OPERATION_NOT_ALLOWED", .ErrRequestForbidden),
   (str "NOT_ENOUGH_ANSWERS", .ErrRequestDeadlineExceeded),
   (str "BACKEND_ERROR", .ErrRequestBackendError)]

/-- The error kind of a status according to the table; a status that is not
in the table stands for the unknown failure. -/
def mappedError (status : GoString) : RequestError :=
  match statusTable.find? (fun entry => entry.1 = status) with
  | some entry => entry.2
  | none => .ErrRequestUnknownFailure

/-- The keys `parseResponse` recognises. -/
def knownKeys : List GoString :=
  [str "h", str "t", str "timestamp", str "otp", str "nonce", str "sessioncounter",
   str "sessionuse", str "status", str "sl"]

/-- The key of a line: the text before its first `=` (the whole line when
it has none). -/
def keyOf (line : GoString) : GoString := line.takeWhile (fun c => c ≠ 61)

/-- The value of a line: the text after its first `=` (empty when it has
none). -/
def valueOf (line : GoString) : GoString := (line.dropWhile (fun c => c ≠ 61)).drop 1

/-- The lines of a reply body as the scanner hands them to the loop. -/
def scannedLines (body : Bytes) : List GoString :=
  (stdlib.rawLines body).map stdlib.dropCR

/-- The value of the last line that has the given key; empty when no line
has it. -/
def lastValue (key : GoString) (lines : List GoString) : GoString :=
  match (lines.filter (fun line => keyOf line = key)).getLast? with
  | some line => valueOf line
  | none => []

/-- The record the specification reads off the lines of a reply: every
field holds the value of the last line with the key of the field. -/
def recordOfLines (lines : List GoString) : response :=
  { ReceivedOneTimePassword := lastValue (str "otp") lines
    SignatureInBase64 := lastValue (str "h") lines
    ReceivedNonce := lastValue (str "nonce") lines
    SessionCounter := lastValue (str "sessioncounter") lines
    SessionUse := lastValue (str "sessionuse") lines
    Status := lastValue (str "status") lines
    SyncFactor := lastValue (str "sl") lines
    RequestTimestamp := lastValue (str "t") lines
    ActivationTimestamp := lastValue (str "timestamp") lines }

/-- The value of the last line that has the given key; the given default
when no line has it. -/
def lastValueFrom (key default : GoString) (lines : List GoString) : GoString :=
  match (lines.filter (fun line => keyOf line = key)).getLast? with
  | some line => valueOf line
  | none => default

/-- A reply with status `OK` and the signature of the key `secretkey`. -/
def sampleResponse : response :=
  { Status := str "OK", ReceivedNonce := str "ABC", ReceivedOneTimePassword := str "cccccc",
    SessionCounter := str "1", SessionUse := str "1", SyncFactor := str "100",
    RequestTimestamp := str "2024", ActivationTimestamp := str "1",
    SignatureInBase64 := str "kwAVbIgxhybJQXGXi5l1v6gZv/o=" }

/-- An authenticator as `New()` builds it without options: three attempts,
two seconds of delay, the multiplier 1.3 converted to a duration, the
default endpoints. -/
def sampleAuthenticator : Authenticator :=
  { retryLimit := 3, retryBackoffDelay := 2000000000, retryBackoffMultiplier := 1,
    syncFactor := str "100", syncTimeLimit := str "6",
    currentEndpointIndex := 0, endpoints := DefaultEndpoints }

/-- An authenticator as `New(WithEndpoints("https://a.example/verify"))`
builds it: the defaults with a single endpoint. -/
def singleEndpointAuthenticator : Authenticator :=
  { retryLimit := 3, retryBackoffDelay := 2000000000, retryBackoffMultiplier := 1,
    syncFactor := str "100", syncTimeLimit := str "6",
    currentEndpointIndex := 0, endpoints := [str "https://a.example/verify"] }

/-- A nonce of forty letters `n`. -/
def sampleNonce : Nonce := ⟨List.replicate 40 110, List.length_replicate 40 110⟩

/-- A request for client 1 whose secret is the base64 text of `secretkey`. -/
def sampleRequest : Request :=
  { OneTimePassword := str "dddddddddddd", ClientID := 1, ClientSecret := str "c2VjcmV0a2V5" }

/-- A reply body that the service signed with the key `secretkey` for
another request: its nonce is `ABC` and its one-time password `cccccc`. -/
def foreignBody : Bytes :=
  str "status=OK\nnonce=ABC\notp=cccccc\nsessioncounter=1\nsessionuse=1\nsl=100\nt=2024\ntimestamp=1\nh=kwAVbIgxhybJQXGXi5l1v6gZv/o=\n"

/-- A world in which the generator returns `sampleNonce` and every GET is
answered with `foreignBody`. -/
def foreignReplyWorld : World :=
  { generateNonce := .ok sampleNonce
    newRequest := fun _ => none
    doGet := fun _ _ => .ok { StatusCode := 200, Body := { data := foreignBody } }
    ctxDone := fun _ => none }

/-- A world in which every GET is answered, with the HTTP status 500 and an
empty body. -/
def serverErrorWorld : World :=
  { failingWorld with
    doGet := fun _ _ => .ok { StatusCode := 500, Body := { data := [] } } }

/-- An authenticator with six endpoints whose cursor is on the fifth. -/
def sixEndpointAuthenticator : Authenticator :=
  { retryLimit := 3, retryBackoffDelay := 2000000000, retryBackoffMultiplier := 1,
    syncFactor := str "100", syncTimeLimit := str "6",
    currentEndpointIndex := 4,
    endpoints := DefaultEndpoints ++ [str "https://api6.example/verify"] }

/-- The wait the specification gives for the `N`-th failed attempt under a
policy with initial delay `D`, multiplier `M` and ceiling `C`:
`min (D * M ^ (N - 1)) C`. -/
def specifiedWait (D : Int) (M : ℚ) (C : Int) (N : Nat) : ℚ :=
  min ((D : ℚ) * M ^ (N - 1)) (C : ℚ)

/-- A policy with the largest accepted multiplier and a ceiling equal to the
initial delay of one minute. -/
def steepPolicy : RetryWithBackOff :=
  { AttemptLimit := 3, AttemptDelay := 60000000000, AttemptDelayLimit := 60000000000,
    AttemptDelayMultiplier := .finite 10 }

/-- The default delays with a multiplier that is not a number. -/
def nanPolicy : RetryWithBackOff :=
  { AttemptLimit := 3, AttemptDelay := 2000000000, AttemptDelayLimit := 60000000000,
    AttemptDelayMultiplier := .nan }

/-- The authenticator `New(WithRetryStrategy(steepPolicy))` builds. -/
def steepAuthenticator : Authenticator :=
  { retryLimit := 3, retryBackoffDelay := 60000000000, retryBackoffMultiplier := 10,
    syncFactor := str "100", syncTimeLimit := str "6",
    currentEndpointIndex := 0, endpoints := DefaultEndpoints }

/-! ## Theorems: response verification -/

/-- C1. For a status other than `OK`, `Verify` returns the request error
that the status table gives for the status (the unknown failure for a
status outside the table, the empty string included), and the result is the
same for every secret and every received signature. -/
theorem Verify_status_mapping (r : response) (secret : Bytes) (h : r.Status ≠ str "OK") :
    r.Verify secret = some (.request (mappedError r.Status)) ∧
    ∀ (secret2 : Bytes) (signature2 : GoString),
      ({ r with SignatureInBase64 := signature2 } : response).Verify secret2 = r.Verify secret := by
  have key : ∀ (q : response) (k : Bytes), q.Status = r.Status →
      q.Verify k = some (.request (mappedError r.Status)) := by
    intro q k hq
    unfold response.Verify
    rw [hq, if_neg h]
    by_cases h1 : r.Status = str "BAD_OTP"
    · rw [h1]; decide
    by_cases h2 : r.Status = str "REPLAYED_OTP"
    · rw [h2]; decide
    by_cases h3 : r.Status = str "REPLAYED_REQUEST"
    · rw [h3]; decide
    by_cases h4 : r.Status = str "BAD_SIGNATURE"
    · rw [h4]; decide
    by_cases h5 : r.Status = str "MISSING_PARAMETER"
    · rw [h5]; decide
    by_cases h6 : r.Status = str "NO_SUCH_CLIENT"
    · rw [h6]; decide
    by_cases h7 : r.Status = str "OPERATION_NOT_ALLOWED"
    · rw [h7]; decide
    by_cases h8 : r.Status = str "NOT_ENOUGH_ANSWERS"
    · rw [h8]; decide
    by_cases h9 : r.Status = str "BACKEND_ERROR"
    · rw [h9]; decide
    have hm : mappedError r.Status = .ErrRequestUnknownFailure := by
      simp only [mappedError, statusTable, List.find?]
      simp [Ne.symm h1, Ne.symm h2, Ne.symm h3, Ne.symm h4, Ne.symm h5, Ne.symm h6,
        Ne.symm h7, Ne.symm h8, Ne.symm h9]
    simp [h1, h2, h3, h4, h5, h6, h7, h8, h9, hm]
  refine ⟨key r secret rfl, ?_⟩
  intro secret2 signature2
  rw [key r secret rfl]
  exact key _ secret2 rfl

/-- Witness of C1 at the empty status. -/
theorem Verify_status_mapping_witness :
    ({} : response).Verify [] = some (.request (mappedError ({} : response).Status)) ∧
    ∀ (secret2 : Bytes) (signature2 : GoString),
      ({ ({} : response) with SignatureInBase64 := signature2 } : response).Verify secret2
        = ({} : response).Verify [] :=
  Verify_status_mapping {} [] (by decide)

/-- C2. For the status `OK`, `Verify` returns `nil` exactly when the received
signature is the base64 text of the HMAC-SHA1, under the secret, of the
string `nonce=..&otp=..&sessioncounter=..&sessionuse=..&sl=..&status=..&t=..&timestamp=..`
built from the fields as they are; in every other case it returns
`ErrResponseBadSignature`. -/
theorem Verify_ok_iff_signature (r : response) (secret : Bytes) (h : r.Status = str "OK") :
    (r.Verify secret = none ↔
      r.SignatureInBase64 = stdlib.base64Encode (stdlib.hmacSha1 secret
        (str "nonce=" ++ r.ReceivedNonce ++ str "&otp=" ++ r.ReceivedOneTimePassword
          ++ str "&sessioncounter=" ++ r.SessionCounter ++ str "&sessionuse=" ++ r.SessionUse
          ++ str "&sl=" ++ r.SyncFactor ++ str "&status=" ++ r.Status
          ++ str "&t=" ++ r.RequestTimestamp ++ str "&timestamp=" ++ r.ActivationTimestamp))) ∧
    (r.Verify secret ≠ none →
      r.Verify secret = some (.response .ErrResponseBadSignature)) := by
  unfold response.Verify response.encodeForVerification
  rw [if_pos h]
  dsimp only
  generalize stdlib.base64Encode _ = expected
  by_cases hs : expected = r.SignatureInBase64
  · simp [hs]
  · simp [hs, Ne.symm hs]

/-- Witness of C2 at a reply with status `OK`. -/
theorem Verify_ok_iff_signature_witness :
    (sampleResponse.Verify (str "secretkey") = none ↔
      sampleResponse.SignatureInBase64 = stdlib.base64Encode (stdlib.hmacSha1 (str "secretkey")
        (str "nonce=" ++ sampleResponse.ReceivedNonce
          ++ str "&otp=" ++ sampleResponse.ReceivedOneTimePassword
          ++ str "&sessioncounter=" ++ sampleResponse.SessionCounter
          ++ str "&sessionuse=" ++ sampleResponse.SessionUse
          ++ str "&sl=" ++ sampleResponse.SyncFactor ++ str "&status=" ++ sampleResponse.Status
          ++ str "&t=" ++ sampleResponse.RequestTimestamp
          ++ str "&timestamp=" ++ sampleResponse.ActivationTimestamp))) ∧
    (sampleResponse.Verify (str "secretkey") ≠ none →
      sampleResponse.Verify (str "secretkey") = some (.response .ErrResponseBadSignature)) :=
  Verify_ok_iff_signature sampleResponse (str "secretkey") (by decide)

/-- C3. `Authenticate` returns `nil` for a reply that carries a valid
signature but neither the nonce that was sent nor the one-time password
that was submitted: the nonce sent is forty letters `n` and the password
`dddddddddddd`, the reply carries `ABC` and `cccccc`. -/
theorem Authenticate_accepts_foreign_reply :
    (sampleAuthenticator.Authenticate foreignReplyWorld sampleRequest).ret = .ok none ∧
    foreignReplyWorld.generateNonce.toOption.map Nonce.String = some sampleNonce.String ∧
    parseResponse { data := foreignBody } = .ok sampleResponse ∧
    sampleResponse.ReceivedNonce ≠ sampleNonce.String ∧
    sampleResponse.ReceivedOneTimePassword ≠ sampleRequest.OneTimePassword := by
  refine ⟨?_, rfl, ?_, ?_, ?_⟩ <;> decide

/-! ## Theorems: request signing -/

/-- The decimal rendering of a client identifier below 2^63 after its
conversion to `int`. -/
theorem Itoa_toInt (n : Nat) (h : n < 2 ^ 63) : stdlib.Itoa (stdlib.toInt n) = str (Nat.repr n) := by
  have h64 : n % 2 ^ 64 = n := Nat.mod_eq_of_lt (by omega)
  unfold stdlib.toInt stdlib.Itoa
  rw [h64, if_pos h, if_neg (by omega)]
  rfl

/-- C4. For a client identifier below 2^63, the signed query is
`P ++ "&h=" ++ base64 (HMAC-SHA1 secret P)`, where `P` is
`id=<decimal>&nonce=<escaped nonce>&otp=<escaped password>&sl=<factor>&timeout=<limit>&timestamp=1`;
the signature covers `P` and nothing else, and the result is a function of
the inputs. -/
theorem buildSignedRequestQuery_eq (a : Authenticator) (oneTimePassword : GoString)
    (clientID : Nat) (secret : Bytes) (nonce : Nonce) (h : clientID < 2 ^ 63) (P : GoString)
    (hP : P = str "id=" ++ str (Nat.repr clientID)
      ++ str "&nonce=" ++ stdlib.QueryEscape nonce.String
      ++ str "&otp=" ++ stdlib.QueryEscape oneTimePassword
      ++ str "&sl=" ++ a.syncFactor ++ str "&timeout=" ++ a.syncTimeLimit
      ++ str "&timestamp=1") :
    a.buildSignedRequestQuery oneTimePassword clientID secret nonce
      = P ++ str "&h=" ++ stdlib.base64Encode (stdlib.hmacSha1 secret P) := by
  subst hP
  unfold Authenticator.buildSignedRequestQuery
  rw [Itoa_toInt clientID h]
  rfl

/-- Witness of C4: client 1, password `cccccc`, the key `secretkey`. -/
theorem buildSignedRequestQuery_eq_witness :
    sampleAuthenticator.buildSignedRequestQuery (str "cccccc") 1 (str "secretkey") sampleNonce
      = str "id=1&nonce=nnnnnnnnnnnnnnnnnnnnnnnnnnnnnnnnnnnnnnnn&otp=cccccc&sl=100&timeout=6&timestamp=1"
        ++ str "&h=" ++ stdlib.base64Encode (stdlib.hmacSha1 (str "secretkey")
          (str "id=1&nonce=nnnnnnnnnnnnnnnnnnnnnnnnnnnnnnnnnnnnnnnn&otp=cccccc&sl=100&timeout=6&timestamp=1")) :=
  buildSignedRequestQuery_eq sampleAuthenticator (str "cccccc") 1 (str "secretkey") sampleNonce
    (by decide) _ (by decide)

/-- The signed query of the sample inputs, byte for byte. -/
theorem buildSignedRequestQuery_sample :
    sampleAuthenticator.buildSignedRequestQuery (str "cccccc") 1 (str "secretkey") sampleNonce
      = str "id=1&nonce=nnnnnnnnnnnnnnnnnnnnnnnnnnnnnnnnnnnnnnnn&otp=cccccc&sl=100&timeout=6&timestamp=1&h=daw9XoaPI0RcyhfR345avukrwqs=" := by
  decide

/-! ## Theorems: response parsing -/

/-- The first component of `Cut` is the key of the line. -/
theorem Cut_fst (s : GoString) : (stdlib.Cut s 61).1 = keyOf s := by
  induction s with
  | nil => rfl
  | cons c cs ih =>
      unfold stdlib.Cut keyOf
      by_cases hc : c = 61
      · simp [hc]
      · simp [hc, ih, keyOf]

/-- The second component of `Cut` is the value of the line. -/
theorem Cut_snd (s : GoString) : (stdlib.Cut s 61).2.1 = valueOf s := by
  induction s with
  | nil => rfl
  | cons c cs ih =>
      unfold stdlib.Cut valueOf
      by_cases hc : c = 61
      · simp [hc]
      · simp [hc, ih, valueOf]

/-- A known key never makes the loop body fail. -/
theorem ok_error_iff (r1 : response) (key value : GoString) (hk : key ∈ knownKeys) :
    (∃ e, (Except.ok r1 : Except Error response) = .error e) ↔
      key ∉ knownKeys ∧ value ≠ [] := by
  constructor
  · rintro ⟨e, he⟩
    cases he
  · rintro ⟨hn, _⟩
    exact absurd hk hn

/-- The loop body fails exactly on an unknown key with a value. -/
theorem parseLine_error_iff (r : response) (text : GoString) :
    (∃ e, parseLine r text = .error e) ↔ keyOf text ∉ knownKeys ∧ valueOf text ≠ [] := by
  unfold parseLine
  rw [Cut_fst, Cut_snd]
  generalize keyOf text = key
  generalize valueOf text = value
  dsimp only
  by_cases h1 : key = str "h"
  · rw [if_pos h1]; exact ok_error_iff _ _ _ (h1 ▸ by decide)
  rw [if_neg h1]
  by_cases h2 : key = str "t"
  · rw [if_pos h2]; exact ok_error_iff _ _ _ (h2 ▸ by decide)
  rw [if_neg h2]
  by_cases h3 : key = str "timestamp"
  · rw [if_pos h3]; exact ok_error_iff _ _ _ (h3 ▸ by decide)
  rw [if_neg h3]
  by_cases h4 : key = str "otp"
  · rw [if_pos h4]; exact ok_error_iff _ _ _ (h4 ▸ by decide)
  rw [if_neg h4]
  by_cases h5 : key = str "nonce"
  · rw [if_pos h5]; exact ok_error_iff _ _ _ (h5 ▸ by decide)
  rw [if_neg h5]
  by_cases h6 : key = str "sessioncounter"
  · rw [if_pos h6]; exact ok_error_iff _ _ _ (h6 ▸ by decide)
  rw [if_neg h6]
  by_cases h7 : key = str "sessionuse"
  · rw [if_pos h7]; exact ok_error_iff _ _ _ (h7 ▸ by decide)
  rw [if_neg h7]
  by_cases h8 : key = str "status"
  · rw [if_pos h8]; exact ok_error_iff _ _ _ (h8 ▸ by decide)
  rw [if_neg h8]
  by_cases h9 : key = str "sl"
  · rw [if_pos h9]; exact ok_error_iff _ _ _ (h9 ▸ by decide)
  rw [if_neg h9]
  have hk : key ∉ knownKeys := by
    simp only [knownKeys, List.mem_cons, List.mem_singleton, List.not_mem_nil, or_false, not_or]
    exact ⟨h1, h2, h3, h4, h5, h6, h7, h8, h9⟩
  by_cases hv : value = []
  · rw [if_neg (not_not.mpr hv)]
    constructor
    · rintro ⟨e, he⟩
      cases he
    · rintro ⟨_, hn⟩
      exact absurd hv hn
  · rw [if_pos hv]
    exact ⟨fun _ => ⟨hk, hv⟩, fun _ => ⟨_, rfl⟩⟩

/-- The bytes of two string constants agree only when the constants do. -/
theorem str_eq_iff (a b : String) : str a = str b ↔ a = b := by
  constructor
  · intro h
    apply String.ext
    have hinj : Function.Injective Char.toNat := by
      intro x y hxy
      rw [← Char.ofNat_toNat x, ← Char.ofNat_toNat y, hxy]
    exact List.map_injective_iff.mpr hinj h
  · intro h
    rw [h]

/-- The scanning loop without a read error, over lines that fit the buffer,
fails exactly when some line has an unknown key and a value. -/
theorem parseLoop_error_iff (lines : List Bytes)
    (h : ∀ raw ∈ lines, raw.length < stdlib.MaxScanTokenSize) (r : response) :
    (∃ e, parseLoop none r lines = .error e) ↔
      ∃ line ∈ lines.map stdlib.dropCR, keyOf line ∉ knownKeys ∧ valueOf line ≠ [] := by
  induction lines generalizing r with
  | nil =>
      simp [parseLoop]
  | cons raw rest ih =>
      have hraw : ¬ stdlib.MaxScanTokenSize ≤ raw.length :=
        Nat.not_le.mpr (h raw (List.mem_cons_self _ _))
      have hrest : ∀ x ∈ rest, x.length < stdlib.MaxScanTokenSize :=
        fun x hx => h x (List.mem_cons_of_mem _ hx)
      unfold parseLoop
      rw [if_neg hraw]
      have hline := parseLine_error_iff r (stdlib.dropCR raw)
      cases hp : parseLine r (stdlib.dropCR raw) with
      | error e =>
          have hbad := hline.mp ⟨e, hp⟩
          simp only [List.map_cons, List.mem_cons]
          exact ⟨fun _ => ⟨_, Or.inl rfl, hbad⟩, fun _ => ⟨e, rfl⟩⟩
      | ok r1 =>
          have hgood : ¬ (keyOf (stdlib.dropCR raw) ∉ knownKeys ∧ valueOf (stdlib.dropCR raw) ≠ []) := by
            intro hb
            obtain ⟨e, he⟩ := hline.mpr hb
            rw [hp] at he
            cases he
          simp only [List.map_cons, List.mem_cons]
          rw [ih hrest r1]
          constructor
          · rintro ⟨line, hmem, hb⟩
            exact ⟨line, Or.inr hmem, hb⟩
          · rintro ⟨line, hmem | hmem, hb⟩
            · subst hmem
              exact absurd hb hgood
            · exact ⟨line, hmem, hb⟩

/-- C5. For a reply body whose lines fit the scanner's buffer, `parseResponse`
returns an error exactly when some line has a key outside the nine
recognised ones together with a non-empty value; the loop body leaves the
record as it is, without error, on an unrecognised key with an empty
value. -/
theorem parseResponse_error_iff (body : Bytes)
    (h : ∀ raw ∈ stdlib.rawLines body, raw.length < stdlib.MaxScanTokenSize) :
    ((∃ e, parseResponse { data := body } = .error e) ↔
      ∃ line ∈ scannedLines body, keyOf line ∉ knownKeys ∧ valueOf line ≠ []) ∧
    (∀ (r : response) (line : GoString),
      keyOf line ∉ knownKeys → valueOf line = [] → parseLine r line = .ok r) := by
  refine ⟨parseLoop_error_iff _ h _, ?_⟩
  intro r line hk hv
  have hno : ¬ ∃ e, parseLine r line = .error e := by
    rw [parseLine_error_iff]
    exact fun hb => hb.2 hv
  simp only [knownKeys, List.mem_cons, List.mem_singleton, List.not_mem_nil, or_false,
    not_or] at hk
  obtain ⟨h1, h2, h3, h4, h5, h6, h7, h8, h9⟩ := hk
  unfold parseLine
  rw [Cut_fst, Cut_snd]
  dsimp only
  rw [if_neg h1, if_neg h2, if_neg h3, if_neg h4, if_neg h5, if_neg h6, if_neg h7, if_neg h8,
    if_neg h9, if_neg (not_not.mpr hv)]

/-- Witness of C5: a body with an unknown key that has a value. -/
theorem parseResponse_error_iff_witness :
    ((∃ e, parseResponse { data := str "status=OK\r\nfoo=\nbar=1\n" } = .error e) ↔
      ∃ line ∈ scannedLines (str "status=OK\r\nfoo=\nbar=1\n"),
        keyOf line ∉ knownKeys ∧ valueOf line ≠ []) ∧
    (∀ (r : response) (line : GoString),
      keyOf line ∉ knownKeys → valueOf line = [] → parseLine r line = .ok r) :=
  parseResponse_error_iff (str "status=OK\r\nfoo=\nbar=1\n") (by decide)

/-- What the loop body stores: each field takes the value of the line when
the key of the line is the key of the field, and is kept otherwise. -/
theorem parseLine_fields (r0 r1 : response) (text : GoString)
    (h : parseLine r0 text = .ok r1) :
    r1.SignatureInBase64
        = (if keyOf text = str "h" then valueOf text else r0.SignatureInBase64) ∧
    r1.RequestTimestamp
        = (if keyOf text = str "t" then valueOf text else r0.RequestTimestamp) ∧
    r1.ActivationTimestamp
        = (if keyOf text = str "timestamp" then valueOf text else r0.ActivationTimestamp) ∧
    r1.ReceivedOneTimePassword
        = (if keyOf text = str "otp" then valueOf text else r0.ReceivedOneTimePassword) ∧
    r1.ReceivedNonce
        = (if keyOf text = str "nonce" then valueOf text else r0.ReceivedNonce) ∧
    r1.SessionCounter
        = (if keyOf text = str "sessioncounter" then valueOf text else r0.SessionCounter) ∧
    r1.SessionUse
        = (if keyOf text = str "sessionuse" then valueOf text else r0.SessionUse) ∧
    r1.Status
        = (if keyOf text = str "status" then valueOf text else r0.Status) ∧
    r1.SyncFactor
        = (if keyOf text = str "sl" then valueOf text else r0.SyncFactor) := by
  unfold parseLine at h
  rw [Cut_fst, Cut_snd] at h
  generalize keyOf text = key at h ⊢
  generalize valueOf text = value at h ⊢
  dsimp only at h
  by_cases h1 : key = str "h"
  · rw [if_pos h1] at h
    injection h with h
    subst h
    subst h1
    simp [str_eq_iff]
  rw [if_neg h1] at h
  by_cases h2 : key = str "t"
  · rw [if_pos h2] at h
    injection h with h
    subst h
    subst h2
    simp [str_eq_iff]
  rw [if_neg h2] at h
  by_cases h3 : key = str "timestamp"
  · rw [if_pos h3] at h
    injection h with h
    subst h
    subst h3
    simp [str_eq_iff]
  rw [if_neg h3] at h
  by_cases h4 : key = str "otp"
  · rw [if_pos h4] at h
    injection h with h
    subst h
    subst h4
    simp [str_eq_iff]
  rw [if_neg h4] at h
  by_cases h5 : key = str "nonce"
  · rw [if_pos h5] at h
    injection h with h
    subst h
    subst h5
    simp [str_eq_iff]
  rw [if_neg h5] at h
  by_cases h6 : key = str "sessioncounter"
  · rw [if_pos h6] at h
    injection h with h
    subst h
    subst h6
    simp [str_eq_iff]
  rw [if_neg h6] at h
  by_cases h7 : key = str "sessionuse"
  · rw [if_pos h7] at h
    injection h with h
    subst h
    subst h7
    simp [str_eq_iff]
  rw [if_neg h7] at h
  by_cases h8 : key = str "status"
  · rw [if_pos h8] at h
    injection h with h
    subst h
    subst h8
    simp [str_eq_iff]
  rw [if_neg h8] at h
  by_cases h9 : key = str "sl"
  · rw [if_pos h9] at h
    injection h with h
    subst h
    subst h9
    simp [str_eq_iff]
  rw [if_neg h9] at h
  by_cases hv : value = []
  · rw [if_neg (not_not.mpr hv)] at h
    injection h with h
    subst h
    simp [h1, h2, h3, h4, h5, h6, h7, h8, h9]
  · rw [if_pos hv] at h
    cases h

/-- One more line in front: the default becomes the value of that line when
the line has the key. -/
theorem lastValueFrom_cons (key default line : GoString) (rest : List GoString) :
    lastValueFrom key default (line :: rest)
      = lastValueFrom key (if keyOf line = key then valueOf line else default) rest := by
  unfold lastValueFrom
  by_cases hk : keyOf line = key
  · rw [List.filter_cons_of_pos (by simpa using hk), List.getLast?_cons, if_pos hk]
    cases (List.filter (fun line => decide (keyOf line = key)) rest).getLast? <;> rfl
  · rw [List.filter_cons_of_neg (by simpa using hk), if_neg hk]

/-- The fields after the scanning loop, for every record the loop starts
from. -/
theorem parseLoop_fields (lines : List Bytes) (r0 r : response)
    (h : parseLoop none r0 lines = .ok r) :
    r.SignatureInBase64 = lastValueFrom (str "h") r0.SignatureInBase64 (lines.map stdlib.dropCR) ∧
    r.RequestTimestamp = lastValueFrom (str "t") r0.RequestTimestamp (lines.map stdlib.dropCR) ∧
    r.ActivationTimestamp = lastValueFrom (str "timestamp") r0.ActivationTimestamp (lines.map stdlib.dropCR) ∧
    r.ReceivedOneTimePassword = lastValueFrom (str "otp") r0.ReceivedOneTimePassword (lines.map stdlib.dropCR) ∧
    r.ReceivedNonce = lastValueFrom (str "nonce") r0.ReceivedNonce (lines.map stdlib.dropCR) ∧
    r.SessionCounter = lastValueFrom (str "sessioncounter") r0.SessionCounter (lines.map stdlib.dropCR) ∧
    r.SessionUse = lastValueFrom (str "sessionuse") r0.SessionUse (lines.map stdlib.dropCR) ∧
    r.Status = lastValueFrom (str "status") r0.Status (lines.map stdlib.dropCR) ∧
    r.SyncFactor = lastValueFrom (str "sl") r0.SyncFactor (lines.map stdlib.dropCR) := by
  induction lines generalizing r0 with
  | nil =>
      unfold parseLoop at h
      injection h with h
      subst h
      simp [lastValueFrom]
  | cons raw rest ih =>
      unfold parseLoop at h
      by_cases hlong : stdlib.MaxScanTokenSize ≤ raw.length
      · rw [if_pos hlong] at h
        cases h
      rw [if_neg hlong] at h
      cases hp : parseLine r0 (stdlib.dropCR raw) with
      | error e =>
          rw [hp] at h
          cases h
      | ok r1 =>
          rw [hp] at h
          obtain ⟨f1, f2, f3, f4, f5, f6, f7, f8, f9⟩ := parseLine_fields r0 r1 _ hp
          obtain ⟨i1, i2, i3, i4, i5, i6, i7, i8, i9⟩ := ih r1 h
          simp only [List.map_cons, lastValueFrom_cons]
          rw [← f1, ← f2, ← f3, ← f4, ← f5, ← f6, ← f7, ← f8, ← f9]
          exact ⟨i1, i2, i3, i4, i5, i6, i7, i8, i9⟩

/-- The key and the value of a line `key=value` whose key has no `=`: what
follows the first `=` is the value, later `=` included. -/
theorem keyOf_valueOf_append (key value : GoString) (h : 61 ∉ key) :
    keyOf (key ++ 61 :: value) = key ∧ valueOf (key ++ 61 :: value) = value := by
  induction key with
  | nil => simp [keyOf, valueOf]
  | cons c cs ih =>
      have hc : c ≠ 61 := fun hc => h (by simp [hc])
      have hcs : 61 ∉ cs := fun hm => h (List.mem_cons_of_mem _ hm)
      obtain ⟨ih1, ih2⟩ := ih hcs
      unfold keyOf at ih1
      unfold valueOf at ih2
      refine ⟨?_, ?_⟩
      · show List.takeWhile _ (c :: (cs ++ 61 :: value)) = c :: cs
        rw [List.takeWhile_cons_of_pos (by simpa using hc), ih1]
      · show List.drop 1 (List.dropWhile _ (c :: (cs ++ 61 :: value))) = value
        rw [List.dropWhile_cons_of_pos (by simpa using hc), ih2]

/-- The record of an accepted body is the one read off its lines. -/
theorem parseResponse_eq_recordOfLines (body : Bytes) (r : response)
    (h : parseResponse { data := body } = .ok r) : r = recordOfLines (scannedLines body) := by
  obtain ⟨a1, a2, a3, a4, a5, a6, a7, a8, a9⟩ := parseLoop_fields (stdlib.rawLines body) {} r h
  cases r
  simp only at a1 a2 a3 a4 a5 a6 a7 a8 a9
  simp only [recordOfLines, response.mk.injEq]
  exact ⟨a4, a1, a5, a6, a7, a8, a9, a2, a3⟩

/-- C6. Each of the nine fields of an accepted reply holds the text after the
first `=` of the last line whose key is the key of the field, and is empty
when no line has that key; what follows the first `=` belongs to the
value, later `=` included; and a second accepted body with the same lines
under every key, in whatever order lines of distinct keys come, gives the
same record. -/
theorem parseResponse_fields (body : Bytes) (r : response)
    (h : parseResponse { data := body } = .ok r) :
    r = recordOfLines (scannedLines body) ∧
    (∀ (key value : GoString), 61 ∉ key →
      keyOf (key ++ 61 :: value) = key ∧ valueOf (key ++ 61 :: value) = value) ∧
    (∀ (body2 : Bytes) (r2 : response), parseResponse { data := body2 } = .ok r2 →
      (∀ key : GoString, (scannedLines body2).filter (fun line => keyOf line = key)
        = (scannedLines body).filter (fun line => keyOf line = key)) → r2 = r) := by
  refine ⟨parseResponse_eq_recordOfLines body r h, keyOf_valueOf_append, ?_⟩
  intro body2 r2 h2 hsame
  rw [parseResponse_eq_recordOfLines body r h, parseResponse_eq_recordOfLines body2 r2 h2]
  have hlast : ∀ key, lastValue key (scannedLines body2) = lastValue key (scannedLines body) := by
    intro key
    unfold lastValue
    rw [hsame key]
  simp only [recordOfLines, hlast]

/-- Witness of C6: a body in which the key `h` and the key `nonce` occur
twice and the signature ends in `=`. -/
theorem parseResponse_fields_witness :
    ({ SignatureInBase64 := str "def=", Status := str "OK", ReceivedNonce := str "N2" } : response)
      = recordOfLines (scannedLines (str "h=abc==\nstatus=OK\nnonce=N1\nh=def=\r\nnonce=N2\n")) ∧
    (∀ (key value : GoString), 61 ∉ key →
      keyOf (key ++ 61 :: value) = key ∧ valueOf (key ++ 61 :: value) = value) ∧
    (∀ (body2 : Bytes) (r2 : response), parseResponse { data := body2 } = .ok r2 →
      (∀ key : GoString, (scannedLines body2).filter (fun line => keyOf line = key)
        = (scannedLines (str "h=abc==\nstatus=OK\nnonce=N1\nh=def=\r\nnonce=N2\n")).filter
            (fun line => keyOf line = key)) →
      r2 = { SignatureInBase64 := str "def=", Status := str "OK", ReceivedNonce := str "N2" }) :=
  parseResponse_fields (str "h=abc==\nstatus=OK\nnonce=N1\nh=def=\r\nnonce=N2\n")
    { SignatureInBase64 := str "def=", Status := str "OK", ReceivedNonce := str "N2" }
    (by decide)

/-- A line without `=` has an empty value. -/
theorem valueOf_without_separator (line : GoString) (h : 61 ∉ line) : valueOf line = [] := by
  induction line with
  | nil => rfl
  | cons c cs ih =>
      have hc : c ≠ 61 := fun hc => h (by simp [hc])
      have hcs : 61 ∉ cs := fun hm => h (List.mem_cons_of_mem _ hm)
      have ih1 := ih hcs
      unfold valueOf at ih1
      show List.drop 1 (List.dropWhile _ (c :: cs)) = []
      rw [List.dropWhile_cons_of_pos (by simpa using hc), ih1]

/-- The loop body never fails on a line without `=`. -/
theorem parseLine_without_separator (r : response) (text : GoString) (h : 61 ∉ text) :
    ∃ r1, parseLine r text = .ok r1 := by
  cases hp : parseLine r text with
  | ok r1 => exact ⟨r1, rfl⟩
  | error e =>
      have hb := (parseLine_error_iff r text).mp ⟨e, hp⟩
      exact absurd (valueOf_without_separator text h) hb.2

/-- The last value is empty when no line has a `=`. -/
theorem lastValue_without_separator (key : GoString) (lines : List GoString)
    (h : ∀ line ∈ lines, 61 ∉ line) : lastValue key lines = [] := by
  unfold lastValue
  cases hl : (lines.filter (fun line => keyOf line = key)).getLast? with
  | none => rfl
  | some line =>
      have hmem : line ∈ lines.filter (fun line => keyOf line = key) := List.mem_of_getLast?_eq_some hl
      exact valueOf_without_separator line (h line (List.mem_of_mem_filter hmem))

/-- C7, counterexample. The body `garbage` has a non-empty line without `=`,
and `parseResponse` returns a record for it, the empty one, not an error. -/
theorem parseResponse_accepts_garbage :
    (∃ line ∈ scannedLines (str "garbage\n"), line ≠ [] ∧ 61 ∉ line) ∧
    parseResponse { data := str "garbage\n" } = .ok {} := by
  decide

/-- C7, amended. A line without `=` is read as a key with an empty value and
never makes the loop body fail; a body whose lines fit the scanner's buffer
and of which no line has a `=` is accepted, and the record returned has
every field empty. -/
theorem parseResponse_without_separator (body : Bytes)
    (hfit : ∀ raw ∈ stdlib.rawLines body, raw.length < stdlib.MaxScanTokenSize)
    (hno : ∀ line ∈ scannedLines body, 61 ∉ line) :
    parseResponse { data := body } = .ok {} ∧
    ∀ (r : response) (text : GoString), 61 ∉ text → ∃ r1, parseLine r text = .ok r1 := by
  refine ⟨?_, parseLine_without_separator⟩
  cases hp : parseResponse { data := body } with
  | error e =>
      obtain ⟨line, hmem, _, hv⟩ := (parseLoop_error_iff _ hfit _).mp ⟨e, hp⟩
      exact absurd (valueOf_without_separator line (hno line hmem)) hv
  | ok r =>
      rw [parseResponse_eq_recordOfLines body r hp]
      simp only [recordOfLines, lastValue_without_separator _ _ hno]

/-- Witness of C7, amended: two lines without `=`, one of them a known key. -/
theorem parseResponse_without_separator_witness :
    parseResponse { data := str "not a key value line\r\nstatus\n" } = .ok {} ∧
    ∀ (r : response) (text : GoString), 61 ∉ text → ∃ r1, parseLine r text = .ok r1 :=
  parseResponse_without_separator (str "not a key value line\r\nstatus\n")
    (by decide) (by decide)

/-! ## Theorems: the failover transport -/

/-- With at least as many endpoints as the default list has, a rotation does
not panic and leaves the endpoint list as it is. -/
theorem rotateEndpoint_ok (a : Authenticator)
    (h : DefaultEndpoints.length ≤ a.endpoints.length) :
    ∃ a1 endpoint, a.rotateEndpoint = (a1, .ok endpoint) ∧ a1.endpoints = a.endpoints := by
  have h5 : DefaultEndpoints.length = 5 := rfl
  rw [h5] at h
  unfold Authenticator.rotateEndpoint Authenticator.GetCurrentEndpoint
  dsimp only
  rw [h5]
  by_cases hc : a.currentEndpointIndex + 1 ≥ 5
  · rw [if_pos hc]
    have hlt : 0 < a.endpoints.length := by omega
    refine ⟨{ a with currentEndpointIndex := 0 }, a.endpoints[0], ?_, rfl⟩
    simp [List.getElem?_eq_getElem hlt]
  · rw [if_neg hc]
    have hlt : a.currentEndpointIndex + 1 < a.endpoints.length := by omega
    refine ⟨{ a with currentEndpointIndex := a.currentEndpointIndex + 1 },
      a.endpoints[a.currentEndpointIndex + 1], ?_, rfl⟩
    simp [List.getElem?_eq_getElem hlt]

/-- When every attempt fails with a transport error and the context is never
cancelled, the loop over an endpoint list of at least five entries runs all
its iterations, each with one GET and one sleep, and returns the named
result `err` as it was on entry. -/
theorem sendLoop_all_fail (w : World) (query : GoString) (err : Option Error)
    (hreq : ∀ url, w.newRequest url = none)
    (hfail : ∀ i url, ∃ e, w.doGet i url = .error e)
    (hctx : ∀ i, w.ctxDone i = none)
    (remaining attempt : Nat) (a : Authenticator) (delay : Int) (endpoint : GoString)
    (hlen : DefaultEndpoints.length ≤ a.endpoints.length) :
    (Authenticator.sendLoop w query err remaining attempt a delay endpoint).ret = .ok (none, err) ∧
    List.countP Event.isGet
      (Authenticator.sendLoop w query err remaining attempt a delay endpoint).trace = remaining ∧
    List.countP Event.isSleep
      (Authenticator.sendLoop w query err remaining attempt a delay endpoint).trace = remaining := by
  induction remaining generalizing attempt a delay endpoint with
  | zero => simp [Authenticator.sendLoop]
  | succ n ih =>
      obtain ⟨e, he⟩ := hfail attempt (endpoint ++ str "?" ++ query)
      obtain ⟨a1, endpoint1, hrot, hends⟩ := rotateEndpoint_ok a hlen
      obtain ⟨i1, i2, i3⟩ := ih (attempt + 1) a1
        (stdlib.mulDuration delay a.retryBackoffMultiplier) endpoint1 (hends ▸ hlen)
      simp only [Authenticator.sendLoop, hreq, he, hctx, hrot]
      refine ⟨i1, ?_, ?_⟩
      · simp [List.countP_cons, Event.isGet, i2]
      · simp [List.countP_cons, Event.isSleep, i3]

/-- C8. When every GET attempt fails with a transport error and the context is
never cancelled, `sendQuery` (any attempt limit, five endpoints or more)
returns a nil response together with a nil error, not the transport error
of the last attempt; `Authenticate` then goes on with the missing
response and panics on it. -/
theorem sendQuery_exhausted_returns_nil (a : Authenticator) (w : World) (query : GoString)
    (hlen : DefaultEndpoints.length ≤ a.endpoints.length)
    (hcur : a.currentEndpointIndex < a.endpoints.length)
    (hreq : ∀ url, w.newRequest url = none)
    (hfail : ∀ i url, ∃ e, w.doGet i url = .error e)
    (hctx : ∀ i, w.ctxDone i = none) :
    (a.sendQuery w query).ret = .ok (none, none) ∧
    ∀ (r : Request) (secret : Bytes) (nonce : Nonce),
      stdlib.base64Decode r.ClientSecret = some secret → w.generateNonce = .ok nonce →
      (a.Authenticate w r).ret = .error .nilDereference := by
  have hsend : ∀ q, (a.sendQuery w q).ret = .ok (none, none) := by
    intro q
    unfold Authenticator.sendQuery Authenticator.GetCurrentEndpoint
    rw [List.getElem?_eq_getElem hcur]
    exact (sendLoop_all_fail w q none hreq hfail hctx a.retryLimit 0 a _ _ hlen).1
  refine ⟨hsend query, ?_⟩
  intro r secret nonce hsecret hnonce
  unfold Authenticator.Authenticate
  simp only [hsecret, hnonce, hsend]

/-- Witness of C8: the default authenticator in a world where every GET
fails. -/
theorem sendQuery_exhausted_returns_nil_witness :
    (sampleAuthenticator.sendQuery failingWorld (str "q")).ret = .ok (none, none) ∧
    ∀ (r : Request) (secret : Bytes) (nonce : Nonce),
      stdlib.base64Decode r.ClientSecret = some secret → failingWorld.generateNonce = .ok nonce →
      (sampleAuthenticator.Authenticate failingWorld r).ret = .error .nilDereference :=
  sendQuery_exhausted_returns_nil sampleAuthenticator failingWorld (str "q")
    (by decide) (by decide) (fun _ => rfl) (fun _ _ => ⟨_, rfl⟩) (fun _ => rfl)

/-- C9. With a single endpoint and an attempt limit of three, `sendQuery` in a
world where every GET fails issues one GET, sleeps once, and panics on the
rotation that follows: the cursor is compared with the length of the default
list, not with the length of the list it indexes. -/
theorem sendQuery_single_endpoint_panics :
    singleEndpointAuthenticator.retryLimit = 3 ∧
    (singleEndpointAuthenticator.sendQuery failingWorld (str "q")).ret
      = .error (.indexOutOfRange 1 1) ∧
    List.countP Event.isGet
      (singleEndpointAuthenticator.sendQuery failingWorld (str "q")).trace = 1 ∧
    (singleEndpointAuthenticator.sendQuery failingWorld (str "q")).trace
      = [.get (str "https://a.example/verify?q"), .sleep 2000000000] := by
  decide

/-- The loop from any iteration on: when the attempt numbered `k` is reached,
fails, and the context is done before the timer fires, the loop returns the
error of the context, and the trace holds the GETs up to that attempt, one
sleep and one rotation for each attempt before it, and ends with the GET of
that attempt. -/
theorem sendLoop_cancelled (w : World) (query : GoString) (err : Option Error)
    (k : Nat) (ctxErr : Error)
    (hfail : ∀ url, ∃ e, w.doGet k url = .error e) (hctx : w.ctxDone k = some ctxErr)
    (remaining attempt : Nat) (a : Authenticator) (delay : Int) (endpoint : GoString)
    (hle : attempt ≤ k)
    (hreach : k - attempt < List.countP Event.isGet
      (Authenticator.sendLoop w query err remaining attempt a delay endpoint).trace) :
    (Authenticator.sendLoop w query err remaining attempt a delay endpoint).ret
      = .ok (none, some ctxErr) ∧
    List.countP Event.isGet
      (Authenticator.sendLoop w query err remaining attempt a delay endpoint).trace
      = k - attempt + 1 ∧
    List.countP Event.isSleep
      (Authenticator.sendLoop w query err remaining attempt a delay endpoint).trace
      = k - attempt ∧
    List.countP Event.isRotate
      (Authenticator.sendLoop w query err remaining attempt a delay endpoint).trace
      = k - attempt ∧
    ∃ url, (Authenticator.sendLoop w query err remaining attempt a delay endpoint).trace.getLast?
      = some (.get url) := by
  induction remaining generalizing attempt a delay endpoint with
  | zero =>
      simp [Authenticator.sendLoop] at hreach
  | succ n ih =>
      cases hreq : w.newRequest (endpoint ++ str "?" ++ query) with
      | some e =>
          simp only [Authenticator.sendLoop, hreq] at hreach
          simp at hreach
      | none =>
          cases hdo : w.doGet attempt (endpoint ++ str "?" ++ query) with
          | ok resp =>
              simp only [Authenticator.sendLoop, hreq, hdo] at hreach
              simp [List.countP_cons, Event.isGet] at hreach
              have hk : k = attempt := by omega
              subst hk
              obtain ⟨e, he⟩ := hfail (endpoint ++ str "?" ++ query)
              rw [hdo] at he
              cases he
          | error e =>
              cases hc : w.ctxDone attempt with
              | some c =>
                  simp only [Authenticator.sendLoop, hreq, hdo, hc] at hreach ⊢
                  simp [List.countP_cons, Event.isGet] at hreach
                  have hk : k = attempt := by omega
                  subst hk
                  rw [hctx] at hc
                  injection hc with hc
                  subst hc
                  simp [List.countP_cons, Event.isGet, Event.isSleep, Event.isRotate]
              | none =>
                  have hne : k ≠ attempt := by
                    intro hk
                    subst hk
                    rw [hctx] at hc
                    cases hc
                  cases hrot : a.rotateEndpoint with
                  | mk a1 res =>
                      cases res with
                      | error p =>
                          simp only [Authenticator.sendLoop, hreq, hdo, hc, hrot] at hreach
                          simp [List.countP_cons, Event.isGet] at hreach
                          omega
                      | ok endpoint1 =>
                          simp only [Authenticator.sendLoop, hreq, hdo, hc, hrot] at hreach ⊢
                          simp only [List.countP_cons, Event.isGet, Event.isSleep, Event.isRotate]
                            at hreach ⊢
                          have hle1 : attempt + 1 ≤ k := by omega
                          have hreach1 : k - (attempt + 1) < List.countP Event.isGet
                              (Authenticator.sendLoop w query err n (attempt + 1) a1
                                (stdlib.mulDuration delay a.retryBackoffMultiplier)
                                endpoint1).trace := by
                            simp at hreach
                            omega
                          obtain ⟨i1, i2, i3, i4, url, i5⟩ := ih (attempt + 1) a1
                            (stdlib.mulDuration delay a.retryBackoffMultiplier) endpoint1
                            hle1 hreach1
                          refine ⟨i1, ?_, ?_, ?_, url, ?_⟩
                          · simp [i2]; omega
                          · simp [i3]; omega
                          · simp [i4]; omega
                          · cases htr : (Authenticator.sendLoop w query err n (attempt + 1) a1
                                (stdlib.mulDuration delay a.retryBackoffMultiplier)
                                endpoint1).trace with
                            | nil =>
                                rw [htr] at i5
                                cases i5
                            | cons ev evs =>
                                rw [htr] at i5
                                simp only [List.getLast?_cons_cons]
                                exact i5

/-- C10. In a call of `sendQuery`, when the attempt numbered `k` (counted from
zero) is issued and fails, and the context is done before the backoff timer
fires, the call returns the error of the context; the trace of the call
holds `k + 1` GETs, `k` sleeps and `k` rotations of the cursor, one for each
earlier failure, and its last event is the GET that failed: nothing is
issued, slept or rotated after it.  At the iteration itself the loop returns
with the authenticator, and so the cursor, as the iteration found it. -/
theorem sendQuery_cancelled (a : Authenticator) (w : World) (query : GoString)
    (k : Nat) (ctxErr : Error)
    (hreach : k < List.countP Event.isGet (a.sendQuery w query).trace)
    (hfail : ∀ url, ∃ e, w.doGet k url = .error e)
    (hctx : w.ctxDone k = some ctxErr) :
    ((a.sendQuery w query).ret = .ok (none, some ctxErr) ∧
      List.countP Event.isGet (a.sendQuery w query).trace = k + 1 ∧
      List.countP Event.isSleep (a.sendQuery w query).trace = k ∧
      List.countP Event.isRotate (a.sendQuery w query).trace = k ∧
      ∃ url, (a.sendQuery w query).trace.getLast? = some (.get url)) ∧
    (∀ (err : Option Error) (remaining : Nat) (b : Authenticator) (delay : Int)
        (endpoint : GoString), w.newRequest (endpoint ++ str "?" ++ query) = none →
      Authenticator.sendLoop w query err (remaining + 1) k b delay endpoint
        = { ret := .ok (none, some ctxErr), auth := b,
            trace := [.get (endpoint ++ str "?" ++ query)] }) := by
  constructor
  · unfold Authenticator.sendQuery at hreach ⊢
    cases hcur : a.GetCurrentEndpoint with
    | error p =>
        simp [hcur] at hreach
    | ok endpoint =>
        simp only [hcur] at hreach ⊢
        have h := sendLoop_cancelled w query none k ctxErr hfail hctx a.retryLimit 0 a
          a.retryBackoffDelay endpoint (Nat.zero_le k) (by simpa using hreach)
        simpa using h
  · intro err remaining b delay endpoint hreq
    obtain ⟨e, he⟩ := hfail (endpoint ++ str "?" ++ query)
    simp only [Authenticator.sendLoop, hreq, he, hctx]

/-- Witness of C10: the default authenticator, the context cancelled during
the wait after the second attempt. -/
theorem sendQuery_cancelled_witness :
    ((sampleAuthenticator.sendQuery cancellingWorld (str "q")).ret
        = .ok (none, some (.external (str "context canceled"))) ∧
      List.countP Event.isGet (sampleAuthenticator.sendQuery cancellingWorld (str "q")).trace
        = 1 + 1 ∧
      List.countP Event.isSleep (sampleAuthenticator.sendQuery cancellingWorld (str "q")).trace
        = 1 ∧
      List.countP Event.isRotate (sampleAuthenticator.sendQuery cancellingWorld (str "q")).trace
        = 1 ∧
      ∃ url, (sampleAuthenticator.sendQuery cancellingWorld (str "q")).trace.getLast?
        = some (.get url)) ∧
    (∀ (err : Option Error) (remaining : Nat) (b : Authenticator) (delay : Int)
        (endpoint : GoString),
      cancellingWorld.newRequest (endpoint ++ str "?" ++ str "q") = none →
      Authenticator.sendLoop cancellingWorld (str "q") err (remaining + 1) 1 b delay endpoint
        = { ret := .ok (none, some (.external (str "context canceled"))), auth := b,
            trace := [.get (endpoint ++ str "?" ++ str "q")] }) :=
  sendQuery_cancelled sampleAuthenticator cancellingWorld (str "q") 1
    (.external (str "context canceled")) (by decide) (fun _ => ⟨_, rfl⟩) rfl

/-- The loop from any iteration on: when the attempt numbered `k` is reached
and completes without a transport error, the loop returns its response with
a nil error, and the trace holds the GETs up to that attempt, one sleep and
one rotation for each attempt before it, and ends with the GET of that
attempt. -/
theorem sendLoop_succeeds (w : World) (query : GoString) (err : Option Error) (k : Nat)
    (hok : ∀ url, ∃ resp, w.doGet k url = .ok resp)
    (remaining attempt : Nat) (a : Authenticator) (delay : Int) (endpoint : GoString)
    (hle : attempt ≤ k)
    (hreach : k - attempt < List.countP Event.isGet
      (Authenticator.sendLoop w query err remaining attempt a delay endpoint).trace) :
    (∃ url resp, w.doGet k url = .ok resp ∧
      (Authenticator.sendLoop w query err remaining attempt a delay endpoint).ret
        = .ok (some resp, none) ∧
      (Authenticator.sendLoop w query err remaining attempt a delay endpoint).trace.getLast?
        = some (.get url)) ∧
    List.countP Event.isGet
      (Authenticator.sendLoop w query err remaining attempt a delay endpoint).trace
      = k - attempt + 1 ∧
    List.countP Event.isSleep
      (Authenticator.sendLoop w query err remaining attempt a delay endpoint).trace
      = k - attempt ∧
    List.countP Event.isRotate
      (Authenticator.sendLoop w query err remaining attempt a delay endpoint).trace
      = k - attempt := by
  induction remaining generalizing attempt a delay endpoint with
  | zero =>
      simp [Authenticator.sendLoop] at hreach
  | succ n ih =>
      cases hreq : w.newRequest (endpoint ++ str "?" ++ query) with
      | some e =>
          simp only [Authenticator.sendLoop, hreq] at hreach
          simp at hreach
      | none =>
          cases hdo : w.doGet attempt (endpoint ++ str "?" ++ query) with
          | ok resp =>
              simp only [Authenticator.sendLoop, hreq, hdo] at hreach ⊢
              simp [List.countP_cons, Event.isGet] at hreach
              have hk : k = attempt := by omega
              subst hk
              refine ⟨⟨_, resp, hdo, rfl, rfl⟩, ?_, ?_, ?_⟩ <;>
                simp [List.countP_cons, Event.isGet, Event.isSleep, Event.isRotate]
          | error e =>
              have hne : k ≠ attempt := by
                intro hk
                subst hk
                obtain ⟨resp, hresp⟩ := hok (endpoint ++ str "?" ++ query)
                rw [hdo] at hresp
                cases hresp
              cases hc : w.ctxDone attempt with
              | some c =>
                  simp only [Authenticator.sendLoop, hreq, hdo, hc] at hreach
                  simp [List.countP_cons, Event.isGet] at hreach
                  omega
              | none =>
                  cases hrot : a.rotateEndpoint with
                  | mk a1 res =>
                      cases res with
                      | error p =>
                          simp only [Authenticator.sendLoop, hreq, hdo, hc, hrot] at hreach
                          simp [List.countP_cons, Event.isGet] at hreach
                          omega
                      | ok endpoint1 =>
                          simp only [Authenticator.sendLoop, hreq, hdo, hc, hrot] at hreach ⊢
                          simp only [List.countP_cons, Event.isGet, Event.isSleep, Event.isRotate]
                            at hreach ⊢
                          have hle1 : attempt + 1 ≤ k := by omega
                          have hreach1 : k - (attempt + 1) < List.countP Event.isGet
                              (Authenticator.sendLoop w query err n (attempt + 1) a1
                                (stdlib.mulDuration delay a.retryBackoffMultiplier)
                                endpoint1).trace := by
                            simp at hreach
                            omega
                          obtain ⟨⟨url, resp, j1, j2, j3⟩, i2, i3, i4⟩ := ih (attempt + 1) a1
                            (stdlib.mulDuration delay a.retryBackoffMultiplier) endpoint1
                            hle1 hreach1
                          refine ⟨⟨url, resp, j1, j2, ?_⟩, ?_, ?_, ?_⟩
                          · cases htr : (Authenticator.sendLoop w query err n (attempt + 1) a1
                                (stdlib.mulDuration delay a.retryBackoffMultiplier)
                                endpoint1).trace with
                            | nil =>
                                rw [htr] at j3
                                cases j3
                            | cons ev evs =>
                                rw [htr] at j3
                                simp only [List.getLast?_cons_cons]
                                exact j3
                          · simp [i2]; omega
                          · simp [i3]; omega
                          · simp [i4]; omega

/-- C11. In a call of `sendQuery`, when the attempt numbered `k` (counted from
zero) is issued and completes without a transport error, the call returns
the response of that attempt as it is, whatever its status code, with a nil
error; the trace holds `k + 1` GETs, `k` sleeps and `k` rotations, one for
each earlier failure, and ends with the GET that succeeded.  At the
iteration itself the loop returns with the authenticator as the iteration
found it, and when the first attempt succeeds the call leaves the
authenticator as it was and does nothing but that one GET. -/
theorem sendQuery_succeeds (a : Authenticator) (w : World) (query : GoString) (k : Nat)
    (hreach : k < List.countP Event.isGet (a.sendQuery w query).trace)
    (hok : ∀ url, ∃ resp, w.doGet k url = .ok resp) :
    ((∃ url resp, w.doGet k url = .ok resp ∧
        (a.sendQuery w query).ret = .ok (some resp, none) ∧
        (a.sendQuery w query).trace.getLast? = some (.get url)) ∧
      List.countP Event.isGet (a.sendQuery w query).trace = k + 1 ∧
      List.countP Event.isSleep (a.sendQuery w query).trace = k ∧
      List.countP Event.isRotate (a.sendQuery w query).trace = k) ∧
    (∀ (err : Option Error) (remaining : Nat) (b : Authenticator) (delay : Int)
        (endpoint : GoString) (resp : HttpResponse),
      w.newRequest (endpoint ++ str "?" ++ query) = none →
      w.doGet k (endpoint ++ str "?" ++ query) = .ok resp →
      Authenticator.sendLoop w query err (remaining + 1) k b delay endpoint
        = { ret := .ok (some resp, none), auth := b,
            trace := [.get (endpoint ++ str "?" ++ query)] }) ∧
    (k = 0 → (a.sendQuery w query).auth = a ∧ (a.sendQuery w query).trace.length = 1) := by
  refine ⟨?_, ?_, ?_⟩
  · unfold Authenticator.sendQuery at hreach ⊢
    cases hcur : a.GetCurrentEndpoint with
    | error p =>
        simp [hcur] at hreach
    | ok endpoint =>
        simp only [hcur] at hreach ⊢
        have h := sendLoop_succeeds w query none k hok a.retryLimit 0 a
          a.retryBackoffDelay endpoint (Nat.zero_le k) (by simpa using hreach)
        simpa using h
  · intro err remaining b delay endpoint resp hreq hdo
    simp only [Authenticator.sendLoop, hreq, hdo]
  · intro hk
    subst hk
    unfold Authenticator.sendQuery at hreach ⊢
    cases hcur : a.GetCurrentEndpoint with
    | error p =>
        simp [hcur] at hreach
    | ok endpoint =>
        simp only [hcur] at hreach ⊢
        cases hn : a.retryLimit with
        | zero =>
            rw [hn] at hreach
            simp [Authenticator.sendLoop] at hreach
        | succ n =>
            rw [hn] at hreach
            cases hreq : w.newRequest (endpoint ++ str "?" ++ query) with
            | some e =>
                simp only [Authenticator.sendLoop, hreq] at hreach
                simp at hreach
            | none =>
                obtain ⟨resp, hresp⟩ := hok (endpoint ++ str "?" ++ query)
                simp only [Authenticator.sendLoop, hreq, hresp]
                simp

/-- Witness of C11: the default authenticator and a service that answers the
first GET with the status 500. -/
theorem sendQuery_succeeds_witness :
    ((∃ url resp, serverErrorWorld.doGet 0 url = .ok resp ∧
        (sampleAuthenticator.sendQuery serverErrorWorld (str "q")).ret = .ok (some resp, none) ∧
        (sampleAuthenticator.sendQuery serverErrorWorld (str "q")).trace.getLast?
          = some (.get url)) ∧
      List.countP Event.isGet (sampleAuthenticator.sendQuery serverErrorWorld (str "q")).trace
        = 0 + 1 ∧
      List.countP Event.isSleep (sampleAuthenticator.sendQuery serverErrorWorld (str "q")).trace
        = 0 ∧
      List.countP Event.isRotate (sampleAuthenticator.sendQuery serverErrorWorld (str "q")).trace
        = 0) ∧
    (∀ (err : Option Error) (remaining : Nat) (b : Authenticator) (delay : Int)
        (endpoint : GoString) (resp : HttpResponse),
      serverErrorWorld.newRequest (endpoint ++ str "?" ++ str "q") = none →
      serverErrorWorld.doGet 0 (endpoint ++ str "?" ++ str "q") = .ok resp →
      Authenticator.sendLoop serverErrorWorld (str "q") err (remaining + 1) 0 b delay endpoint
        = { ret := .ok (some resp, none), auth := b,
            trace := [.get (endpoint ++ str "?" ++ str "q")] }) ∧
    (0 = 0 → (sampleAuthenticator.sendQuery serverErrorWorld (str "q")).auth
        = sampleAuthenticator ∧
      (sampleAuthenticator.sendQuery serverErrorWorld (str "q")).trace.length = 1) :=
  sendQuery_succeeds sampleAuthenticator serverErrorWorld (str "q") 0 (by decide)
    (fun _ => ⟨_, rfl⟩)

/-- C12. With a single endpoint and the cursor on it, `rotateEndpoint` sets
the cursor to 1 and panics on the index, where the claim has the cursor at
(0 + 1) mod 1 = 0; with six endpoints and the cursor on the fifth, it sets
the cursor to 0, where the claim has (4 + 1) mod 6 = 5.  Both lists are
accepted by `WithEndpoints`. -/
theorem rotateEndpoint_wraps_at_five :
    New [WithEndpoints [str "https://a.example/verify"]]
      = .ok (.ok singleEndpointAuthenticator) ∧
    singleEndpointAuthenticator.rotateEndpoint.1.currentEndpointIndex = 1 ∧
    singleEndpointAuthenticator.rotateEndpoint.2 = .error (.indexOutOfRange 1 1) ∧
    (WithEndpoints sixEndpointAuthenticator.endpoints {}).2 = none ∧
    sixEndpointAuthenticator.endpoints.length = 6 ∧
    sixEndpointAuthenticator.currentEndpointIndex = 4 ∧
    sixEndpointAuthenticator.rotateEndpoint.1.currentEndpointIndex = 0 ∧
    sixEndpointAuthenticator.rotateEndpoint.2 = .ok (str "https://api.yubico.com/wsapi/2.0/verify") := by
  decide

/-- One rotation with the cursor below five. -/
theorem rotateEndpoint_five (b : Authenticator) (hcur : b.currentEndpointIndex < 5) :
    b.rotateEndpoint.1.currentEndpointIndex = (b.currentEndpointIndex + 1) % 5 ∧
    b.rotateEndpoint.1.endpoints = b.endpoints ∧
    b.rotateEndpoint.2 = b.rotateEndpoint.1.GetCurrentEndpoint := by
  have h5 : DefaultEndpoints.length = 5 := rfl
  unfold Authenticator.rotateEndpoint
  dsimp only
  rw [h5]
  by_cases hc : b.currentEndpointIndex + 1 ≥ 5
  · rw [if_pos hc]
    have h4 : b.currentEndpointIndex = 4 := by omega
    simp [h4]
  · rw [if_neg hc]
    have hmod : (b.currentEndpointIndex + 1) % 5 = b.currentEndpointIndex + 1 :=
      Nat.mod_eq_of_lt (by omega)
    simp [hmod]

/-- The cursor and the list after any number of rotations, starting from the
first endpoint: the cursor counts modulo five whatever the length of the
list. -/
theorem rotateTimes_cursor (a : Authenticator) (hcur : a.currentEndpointIndex = 0) (N : Nat) :
    (a.rotateTimes N).currentEndpointIndex = N % 5 ∧ (a.rotateTimes N).endpoints = a.endpoints := by
  induction N with
  | zero => exact ⟨hcur, rfl⟩
  | succ n ih =>
      obtain ⟨ih1, ih2⟩ := ih
      have hlt : (a.rotateTimes n).currentEndpointIndex < 5 := by
        rw [ih1]
        exact Nat.mod_lt _ (by decide)
      obtain ⟨s1, s2, _⟩ := rotateEndpoint_five (a.rotateTimes n) hlt
      show (a.rotateTimes n).rotateEndpoint.1.currentEndpointIndex = (n + 1) % 5 ∧
        (a.rotateTimes n).rotateEndpoint.1.endpoints = a.endpoints
      rw [s1, s2, ih1, ih2]
      exact ⟨by omega, rfl⟩

/-- C13. For an authenticator with five endpoints and the cursor at 0, after
`N` consecutive calls of `rotateEndpoint` the cursor is `N mod 5`, the list
is unchanged, and `GetCurrentEndpoint` returns the endpoint at index
`N mod 5`, which is also what the last of the calls returned. -/
theorem rotateTimes_five (a : Authenticator) (hlen : a.endpoints.length = 5)
    (hcur : a.currentEndpointIndex = 0) (N : Nat) :
    (a.rotateTimes N).currentEndpointIndex = N % 5 ∧
    (a.rotateTimes N).endpoints = a.endpoints ∧
    ∃ endpoint, a.endpoints[N % 5]? = some endpoint ∧
      (a.rotateTimes N).GetCurrentEndpoint = .ok endpoint ∧
      (0 < N → (a.rotateTimes (N - 1)).rotateEndpoint.2 = .ok endpoint) := by
  obtain ⟨c1, c2⟩ := rotateTimes_cursor a hcur N
  have hlt : N % 5 < a.endpoints.length := by
    rw [hlen]
    exact Nat.mod_lt _ (by decide)
  have hget : (a.rotateTimes N).GetCurrentEndpoint = .ok (a.endpoints[N % 5]) := by
    unfold Authenticator.GetCurrentEndpoint
    rw [c1, c2, List.getElem?_eq_getElem hlt]
  refine ⟨c1, c2, a.endpoints[N % 5], List.getElem?_eq_getElem hlt, hget, ?_⟩
  intro hN
  obtain ⟨n, rfl⟩ : ∃ n, N = n + 1 := ⟨N - 1, by omega⟩
  obtain ⟨p1, p2⟩ := rotateTimes_cursor a hcur n
  have hltn : (a.rotateTimes n).currentEndpointIndex < 5 := by
    rw [p1]
    exact Nat.mod_lt _ (by decide)
  obtain ⟨_, _, s3⟩ := rotateEndpoint_five (a.rotateTimes n) hltn
  rw [Nat.add_sub_cancel, s3]
  exact hget

/-- Witness of C13: the default authenticator after seven rotations. -/
theorem rotateTimes_five_witness :
    (sampleAuthenticator.rotateTimes 7).currentEndpointIndex = 7 % 5 ∧
    (sampleAuthenticator.rotateTimes 7).endpoints = sampleAuthenticator.endpoints ∧
    ∃ endpoint, sampleAuthenticator.endpoints[7 % 5]? = some endpoint ∧
      (sampleAuthenticator.rotateTimes 7).GetCurrentEndpoint = .ok endpoint ∧
      (0 < 7 → (sampleAuthenticator.rotateTimes (7 - 1)).rotateEndpoint.2 = .ok endpoint) :=
  rotateTimes_five sampleAuthenticator (by decide) (by decide) 7

/-! ## Theorems: the retry policy and the settings -/

/-- C14. Under the default policy (two seconds, multiplier 1.3, ceiling one
minute, three attempts) the authenticator of `New()` waits two seconds after
every failed attempt: the multiplier is stored as the duration 1.  The
specification gives 2.6 seconds for the second wait. -/
theorem default_backoff_does_not_grow :
    New [] = .ok (.ok sampleAuthenticator) ∧
    sampleAuthenticator.retryBackoffMultiplier = 1 ∧
    sleepDelays (sampleAuthenticator.sendQuery failingWorld (str "q")).trace
      = [2000000000, 2000000000, 2000000000] ∧
    specifiedWait 2000000000 (13 / 10) 60000000000 2 = 2600000000 := by
  refine ⟨by decide, by decide, by decide, ?_⟩
  norm_num [specifiedWait]

/-- C15. The policy with initial delay and ceiling of one minute and the
multiplier 10 is accepted, and the authenticator built from it sleeps one
minute, ten minutes and a hundred minutes: the ceiling is not among the
fields of the authenticator and no sleep is capped by it. -/
theorem backoff_exceeds_limit :
    (WithRetryStrategy steepPolicy {}).2 = none ∧
    New [WithRetryStrategy steepPolicy] = .ok (.ok steepAuthenticator) ∧
    sleepDelays (steepAuthenticator.sendQuery failingWorld (str "q")).trace
      = [60000000000, 600000000000, 6000000000000] ∧
    steepPolicy.AttemptDelayLimit < 600000000000 := by
  decide

/-- What `WithRetryStrategy` accepts: it returns no error exactly when the
attempt limit is at least one, the delay is above 30 milliseconds and at
most one minute, the ceiling is at least the delay, and the multiplier is a
NaN or a finite number above 1 and at most 10; it then stores the policy and
changes nothing else, and when it returns an error it leaves the settings
as they were. -/
theorem WithRetryStrategy_accepts_iff (r : RetryWithBackOff) (o : options) :
    ((WithRetryStrategy r o).2 = none ↔
      1 ≤ r.AttemptLimit ∧ 30 * 1000000 < r.AttemptDelay ∧ r.AttemptDelay ≤ 60 * 1000000000 ∧
        r.AttemptDelay ≤ r.AttemptDelayLimit ∧
        (r.AttemptDelayMultiplier = .nan ∨
          ∃ value : ℚ, r.AttemptDelayMultiplier = .finite value ∧ 1 < value ∧ value ≤ 10)) ∧
    ((WithRetryStrategy r o).2 = none → (WithRetryStrategy r o).1 = { o with Retry := some r }) ∧
    ((WithRetryStrategy r o).2 ≠ none → (WithRetryStrategy r o).1 = o) := by
  have hms : stdlib.Millisecond * 30 = 30 * 1000000 := by decide
  have hmin : stdlib.Minute = 60 * 1000000000 := by decide
  have hmul : (stdlib.Float64.le r.AttemptDelayMultiplier (.finite 1) = false ∧
        stdlib.Float64.gt r.AttemptDelayMultiplier (.finite 10) = false) ↔
      (r.AttemptDelayMultiplier = .nan ∨
        ∃ value : ℚ, r.AttemptDelayMultiplier = .finite value ∧ 1 < value ∧ value ≤ 10) := by
    cases r.AttemptDelayMultiplier with
    | finite value => simp [stdlib.Float64.le, stdlib.Float64.gt]
    | posInf => simp [stdlib.Float64.le, stdlib.Float64.gt]
    | negInf => simp [stdlib.Float64.le, stdlib.Float64.gt]
    | nan => simp [stdlib.Float64.le, stdlib.Float64.gt]
  unfold WithRetryStrategy
  rw [hms, hmin]
  by_cases h1 : r.AttemptLimit = 0
  · rw [if_pos h1]
    exact ⟨⟨fun h => Option.noConfusion h, fun h => absurd h1 (Nat.one_le_iff_ne_zero.mp h.1)⟩,
      fun h => Option.noConfusion h, fun _ => rfl⟩
  have h1' : 1 ≤ r.AttemptLimit := Nat.one_le_iff_ne_zero.mpr h1
  rw [if_neg h1]
  by_cases h2 : r.AttemptDelay ≤ 30 * 1000000
  · rw [if_pos h2]
    exact ⟨⟨fun h => Option.noConfusion h, fun h => absurd h2 (not_le.mpr h.2.1)⟩,
      fun h => Option.noConfusion h, fun _ => rfl⟩
  rw [if_neg h2]
  by_cases h3 : r.AttemptDelay > 60 * 1000000000
  · rw [if_pos h3]
    exact ⟨⟨fun h => Option.noConfusion h, fun h => absurd h.2.2.1 (not_le.mpr h3)⟩,
      fun h => Option.noConfusion h, fun _ => rfl⟩
  rw [if_neg h3]
  by_cases h4 : r.AttemptDelayLimit < r.AttemptDelay
  · rw [if_pos h4]
    exact ⟨⟨fun h => Option.noConfusion h, fun h => absurd h.2.2.2.1 (not_le.mpr h4)⟩,
      fun h => Option.noConfusion h, fun _ => rfl⟩
  rw [if_neg h4]
  by_cases h5 : stdlib.Float64.le r.AttemptDelayMultiplier (.finite 1) = true
  · rw [if_pos h5]
    refine ⟨⟨fun h => Option.noConfusion h, fun h => ?_⟩, fun h => Option.noConfusion h,
      fun _ => rfl⟩
    have hb := (hmul.mpr h.2.2.2.2).1
    rw [h5] at hb
    cases hb
  rw [if_neg h5]
  by_cases h6 : stdlib.Float64.gt r.AttemptDelayMultiplier (.finite 10) = true
  · rw [if_pos h6]
    refine ⟨⟨fun h => Option.noConfusion h, fun h => ?_⟩, fun h => Option.noConfusion h,
      fun _ => rfl⟩
    have hb := (hmul.mpr h.2.2.2.2).2
    rw [h6] at hb
    cases hb
  rw [if_neg h6]
  exact ⟨⟨fun _ => ⟨h1', not_le.mp h2, not_lt.mp h3, not_lt.mp h4,
      hmul.mp ⟨Bool.eq_false_iff.mpr h5, Bool.eq_false_iff.mpr h6⟩⟩,
    fun _ => rfl⟩, fun _ => rfl, fun h => absurd rfl h⟩

/-- C16. `WithRetryStrategy` accepts a policy whose multiplier is a NaN: it
returns no error and stores the policy, although the multiplier is neither
above 1 nor at most 10.  Both comparisons of the option, `<= 1` and `> 10`,
are false for a NaN. -/
theorem WithRetryStrategy_accepts_nan :
    nanPolicy.AttemptDelayMultiplier = .nan ∧
    (WithRetryStrategy nanPolicy {}).2 = none ∧
    (WithRetryStrategy nanPolicy {}).1.Retry = some nanPolicy ∧
    stdlib.Float64.gt nanPolicy.AttemptDelayMultiplier (.finite 1) = false ∧
    stdlib.Float64.le nanPolicy.AttemptDelayMultiplier (.finite 10) = false := by
  decide

/-- The conversion `uint8(d.Seconds())` at some durations: six seconds give
6; 300 seconds give 44; one nanosecond short of 2^24 + 1 seconds gives 1,
the sum being rounded up to the next whole number; 2^31 + 5 seconds, beyond
32 bits, give 0; minus one second gives 255. -/
theorem secondsAsUint8_samples :
    stdlib.secondsAsUint8 6000000000 = 6 ∧
    stdlib.secondsAsUint8 300000000000 = 44 ∧
    stdlib.secondsAsUint8 16777216999999999 = 1 ∧
    stdlib.secondsAsUint8 2147483653000000000 = 0 ∧
    stdlib.secondsAsUint8 (-1000000000) = 255 := by
  decide

/-- C17. `WithSynchronizationTimeLimit` accepts the duration zero and a
duration of half a second, and stores the limit 0 for both; `New` then
builds an authenticator whose requests carry `timeout=0`.  The error
message of the option speaks of 1 to 120 seconds, the check is only
against 120. -/
theorem WithSynchronizationTimeLimit_accepts_zero :
    (WithSynchronizationTimeLimit 0 {}).2 = none ∧
    (WithSynchronizationTimeLimit 0 {}).1.SynchronizationTimeLimit = some 0 ∧
    (WithSynchronizationTimeLimit 500000000 {}).2 = none ∧
    (WithSynchronizationTimeLimit 500000000 {}).1.SynchronizationTimeLimit = some 0 ∧
    New [WithSynchronizationTimeLimit 0]
      = .ok (.ok { sampleAuthenticator with syncTimeLimit := str "0" }) := by
  decide

/-- What a successful run of the loop of `WithEndpoints` has checked: no
endpoint of the call is empty, has white space around it, or is in the list
the settings held before the call. -/
theorem checkEndpoints_none (existing endpoints : List GoString)
    (h : checkEndpoints existing endpoints = none) :
    ∀ endpoint ∈ endpoints,
      endpoint ≠ [] ∧ endpoint = stdlib.TrimSpace endpoint ∧ endpoint ∉ existing := by
  induction endpoints with
  | nil =>
      intro endpoint hmem
      cases hmem
  | cons e rest ih =>
      unfold checkEndpoints at h
      by_cases h1 : e = []
      · rw [if_pos h1] at h
        cases h
      rw [if_neg h1] at h
      by_cases h2 : e ≠ stdlib.TrimSpace e
      · rw [if_pos h2] at h
        cases h
      rw [if_neg h2] at h
      by_cases h3 : e ∈ existing
      · rw [if_pos h3] at h
        cases h
      rw [if_neg h3] at h
      intro endpoint hmem
      rcases List.mem_cons.mp hmem with rfl | hmem
      · exact ⟨h1, not_not.mp h2, h3⟩
      · exact ih h endpoint hmem

/-- C18. One call of `WithEndpoints` with the same URL twice, on empty
settings, succeeds and leaves a list that holds the URL twice: an endpoint
is compared with the list the settings held before the call, not with the
other endpoints of the call. -/
theorem WithEndpoints_keeps_duplicates :
    (WithEndpoints [str "https://a.example/verify", str "https://a.example/verify"] {}).2
      = none ∧
    (WithEndpoints [str "https://a.example/verify", str "https://a.example/verify"] {}).1.Endpoints
      = [str "https://a.example/verify", str "https://a.example/verify"] ∧
    ¬ (WithEndpoints [str "https://a.example/verify", str "https://a.example/verify"]
        {}).1.Endpoints.Nodup := by
  decide

/-! ## Theorems: the nonce generator -/

/-- The character at an index below 62. -/
theorem characterAt_natCast (m : Nat) (h : m < 62) :
    characterAt (m : Int) = .ok (defaultNonceCharacterSet.getD m 0) ∧
    defaultNonceCharacterSet.getD m 0 ∈ defaultNonceCharacterSet ∧
    defaultNonceCharacterSet[m]? = some (defaultNonceCharacterSet.getD m 0) := by
  have hlen : defaultNonceCharacterSet.length = 62 := by decide
  have hm : m < defaultNonceCharacterSet.length := by omega
  have hget : defaultNonceCharacterSet.getD m 0 = defaultNonceCharacterSet[m] :=
    List.getD_eq_getElem _ _ hm
  unfold characterAt
  rw [if_neg (by omega), Int.toNat_ofNat, List.getElem?_eq_getElem hm, hget]
  exact ⟨rfl, List.getElem_mem _, rfl⟩

/-- C19. For a clock reading at or after the epoch and 36 bytes from the
random source, the default generator returns, without error, a nonce of 40
bytes, each of them in the character set, of which the first four are the
characters at the four lowest base-62 digits of the reading, lowest digit
first. -/
theorem nonce_generated (now : Int) (random : Bytes) (hnow : 0 ≤ now)
    (hlen : random.length = 36) :
    ∃ nonce, cryptoRandNonceGeneratorWithFourLeadingTimeBytes now { bytes := random }
        = .ok (nonce, none) ∧
      nonce.bytes.length = 40 ∧
      (∀ b ∈ nonce.bytes, b ∈ defaultNonceCharacterSet) ∧
      ∀ i < 4, nonce.bytes[i]? = defaultNonceCharacterSet[now.toNat / 62 ^ i % 62]? := by
  obtain ⟨n, rfl⟩ := Int.eq_ofNat_of_zero_le hnow
  have hL : defaultNonceCharacterSetLength = ((62 : Nat) : Int) := by decide
  have hB : defaultNonceCharacterSetLengthByte = 62 := by decide
  have h62 : ∀ m : Nat, m % 62 < 62 := fun m => Nat.mod_lt _ (by decide)
  obtain ⟨c0, m0, g0⟩ := characterAt_natCast (n % 62) (h62 _)
  obtain ⟨c1, m1, g1⟩ := characterAt_natCast (n / 62 % 62) (h62 _)
  obtain ⟨c2, m2, g2⟩ := characterAt_natCast (n / 62 / 62 % 62) (h62 _)
  obtain ⟨c3, m3, g3⟩ := characterAt_natCast (n / 62 / 62 / 62 % 62) (h62 _)
  have hbuf : (random ++ List.replicate 36 0).take 36 = random := List.take_left' hlen
  unfold cryptoRandNonceGeneratorWithFourLeadingTimeBytes
  simp only [hL, ← Int.ofNat_tmod, ← Int.ofNat_tdiv, c0, c1, c2, c3, hbuf, hlen, hB]
  rw [if_neg (by decide)]
  have hl : (List.getD defaultNonceCharacterSet (n % 62) 0 ::
      List.getD defaultNonceCharacterSet (n / 62 % 62) 0 ::
      List.getD defaultNonceCharacterSet (n / 62 / 62 % 62) 0 ::
      List.getD defaultNonceCharacterSet (n / 62 / 62 / 62 % 62) 0 ::
      List.map (fun b => List.getD defaultNonceCharacterSet (b % 256 % 62) 0) random).length
      = 40 := by
    simp [hlen]
  refine ⟨_, rfl, ?_, ?_, ?_⟩
  · simp [Nonce.ofBytes]
  · intro b hb
    have hb' := hb
    unfold Nonce.ofBytes at hb'
    simp only [List.take_left' hl] at hb'
    simp only [List.mem_cons, List.mem_map] at hb'
    rcases hb' with rfl | rfl | rfl | rfl | ⟨x, _, rfl⟩
    · exact m0
    · exact m1
    · exact m2
    · exact m3
    · exact (characterAt_natCast (x % 256 % 62) (h62 _)).2.1
  · intro i hi
    have e2 : n / 62 / 62 = n / 62 ^ 2 := by
      rw [Nat.div_div_eq_div_mul]
      norm_num
    have e3 : n / 62 / 62 / 62 = n / 62 ^ 3 := by
      rw [Nat.div_div_eq_div_mul, Nat.div_div_eq_div_mul]
      norm_num
    unfold Nonce.ofBytes
    simp only [List.take_left' hl, Int.toNat_ofNat]
    interval_cases i
    · rw [pow_zero, Nat.div_one, g0]
      simp only [List.getElem?_cons_zero]
    · rw [pow_one, g1]
      simp only [List.getElem?_cons_succ, List.getElem?_cons_zero]
    · rw [← e2, g2]
      simp only [List.getElem?_cons_succ, List.getElem?_cons_zero]
    · rw [← e3, g3]
      simp only [List.getElem?_cons_succ, List.getElem?_cons_zero]

/-- Witness of C19: a reading in the year 2024 and the bytes 0 to 35. -/
theorem nonce_generated_witness :
    ∃ nonce, cryptoRandNonceGeneratorWithFourLeadingTimeBytes 1730000000123456789
        { bytes := List.range 36 } = .ok (nonce, none) ∧
      nonce.bytes.length = 40 ∧
      (∀ b ∈ nonce.bytes, b ∈ defaultNonceCharacterSet) ∧
      ∀ i < 4, nonce.bytes[i]?
        = defaultNonceCharacterSet[(1730000000123456789 : Int).toNat / 62 ^ i % 62]? :=
  nonce_generated 1730000000123456789 (List.range 36) (by decide) (by decide)

/-! ## Theorems: the orchestrator -/

/-- C20. When the client secret does not decode as standard base64,
`Authenticate` returns the decode failure wrapped as an invalid client
secret, leaves the authenticator, and so the cursor, as it was, and does
nothing else: the trace is empty, so the nonce generator is not called and
no GET is issued. -/
theorem Authenticate_invalid_secret (a : Authenticator) (w : World) (r : Request)
    (h : stdlib.base64Decode r.ClientSecret = none) :
    (a.Authenticate w r).ret
      = .ok (some (.wrapped (str "invalid client secret") .corruptInput)) ∧
    (a.Authenticate w r).auth = a ∧
    (a.Authenticate w r).trace = [] ∧
    Event.nonce ∉ (a.Authenticate w r).trace ∧
    List.countP Event.isGet (a.Authenticate w r).trace = 0 := by
  unfold Authenticator.Authenticate
  simp only [h]
  simp

/-- Witness of C20: a secret with characters outside the alphabet. -/
theorem Authenticate_invalid_secret_witness :
    (sampleAuthenticator.Authenticate foreignReplyWorld
        { sampleRequest with ClientSecret := str "not base64!" }).ret
      = .ok (some (.wrapped (str "invalid client secret") .corruptInput)) ∧
    (sampleAuthenticator.Authenticate foreignReplyWorld
        { sampleRequest with ClientSecret := str "not base64!" }).auth = sampleAuthenticator ∧
    (sampleAuthenticator.Authenticate foreignReplyWorld
        { sampleRequest with ClientSecret := str "not base64!" }).trace = [] ∧
    Event.nonce ∉ (sampleAuthenticator.Authenticate foreignReplyWorld
        { sampleRequest with ClientSecret := str "not base64!" }).trace ∧
    List.countP Event.isGet (sampleAuthenticator.Authenticate foreignReplyWorld
        { sampleRequest with ClientSecret := str "not base64!" }).trace = 0 :=
  Authenticate_invalid_secret sampleAuthenticator foreignReplyWorld
    { sampleRequest with ClientSecret := str "not base64!" } (by decide)

/-! ## Theorems: the cursor and the endpoint list -/

/-- The authenticator `New` builds from one `WithEndpoints` option holds the
endpoints of the option, in their order, with the cursor on the first. -/
theorem New_WithEndpoints (endpoints : List GoString) (a : Authenticator)
    (h : New [WithEndpoints endpoints] = .ok (.ok a)) :
    a.endpoints = endpoints ∧ a.currentEndpointIndex = 0 ∧ 1 ≤ endpoints.length := by
  have hr1 : stdlib.Float64.le (.finite (mkRat 5854679515581645 4503599627370496)) (.finite 1)
      = false := by decide
  have hr2 : stdlib.Float64.gt (.finite (mkRat 5854679515581645 4503599627370496)) (.finite 10)
      = false := by decide
  have hs : ¬ (stdlib.secondsAsUint8 (stdlib.Second * 6) > 120) := by decide
  have hd1 : ¬ (stdlib.Second * 2 ≤ stdlib.Millisecond * 30) := by decide
  have hd2 : ¬ (stdlib.Second * 2 > stdlib.Minute) := by decide
  have hd3 : ¬ (stdlib.Minute < stdlib.Second * 2) := by decide
  by_cases hlen : endpoints.length = 0
  · simp [New, applyOptions, WithEndpoints, hlen] at h
  cases hc : checkEndpoints [] endpoints with
  | some err =>
      simp [New, applyOptions, WithEndpoints, hlen, hc] at h
  | none =>
      have hpos : 0 < endpoints.length := Nat.pos_of_ne_zero hlen
      simp [New, applyOptions, WithEndpoints, hlen, hc, defaultNonceGenerator,
        defaultSynchronizationFactor, WithSynchronizationFactor,
        defaultSynchronizationTimeLimit, WithSynchronizationTimeLimit, defaultEndpoints,
        defaultRetryWithBackOff, WithRetryStrategy, defaultClientPool, WithClientPool,
        hr1, hr2, hs, hd1, hd2, hd3, hpos] at h
      subst h
      exact ⟨rfl, rfl, hpos⟩

/-- C21. For the authenticator `New` builds from an accepted endpoint list of
length `L`: with five endpoints or more the cursor stays below `L` after any
number of rotations and `GetCurrentEndpoint` returns an endpoint; with fewer
than five, after `L` rotations the cursor is `L`, which is no index of the
list, the last of those rotations panics on the index, and
`GetCurrentEndpoint` panics from then on.  The cursor is wrapped at the
length of the default list, not at `L`. -/
theorem cursor_valid_iff_five (endpoints : List GoString) (a : Authenticator)
    (hnew : New [WithEndpoints endpoints] = .ok (.ok a)) :
    (5 ≤ endpoints.length → ∀ N : Nat,
      (a.rotateTimes N).currentEndpointIndex < (a.rotateTimes N).endpoints.length ∧
      ∃ endpoint, (a.rotateTimes N).GetCurrentEndpoint = .ok endpoint) ∧
    (endpoints.length < 5 →
      (a.rotateTimes endpoints.length).currentEndpointIndex = endpoints.length ∧
      (a.rotateTimes endpoints.length).endpoints.length = endpoints.length ∧
      (a.rotateTimes (endpoints.length - 1)).rotateEndpoint.2
        = .error (.indexOutOfRange endpoints.length endpoints.length) ∧
      (a.rotateTimes endpoints.length).GetCurrentEndpoint
        = .error (.indexOutOfRange endpoints.length endpoints.length)) := by
  obtain ⟨hends, hcur, hpos⟩ := New_WithEndpoints endpoints a hnew
  constructor
  · intro hlong N
    obtain ⟨c1, c2⟩ := rotateTimes_cursor a hcur N
    have hlt : N % 5 < a.endpoints.length := by
      rw [hends]
      exact Nat.lt_of_lt_of_le (Nat.mod_lt _ (by decide)) hlong
    refine ⟨by rw [c1, c2]; exact hlt, a.endpoints[N % 5], ?_⟩
    unfold Authenticator.GetCurrentEndpoint
    rw [c1, c2, List.getElem?_eq_getElem hlt]
  · intro hshort
    obtain ⟨c1, c2⟩ := rotateTimes_cursor a hcur endpoints.length
    have hmod : endpoints.length % 5 = endpoints.length := Nat.mod_eq_of_lt hshort
    rw [hmod] at c1
    have hget : (a.rotateTimes endpoints.length).GetCurrentEndpoint
        = .error (.indexOutOfRange endpoints.length endpoints.length) := by
      unfold Authenticator.GetCurrentEndpoint
      rw [c1, c2, hends, List.getElem?_eq_none (Nat.le_refl _)]
    refine ⟨c1, by rw [c2, hends], ?_, hget⟩
    obtain ⟨n, hn⟩ : ∃ n, endpoints.length = n + 1 := ⟨endpoints.length - 1, by omega⟩
    rw [hn, Nat.add_sub_cancel]
    rw [hn] at hget
    exact hget

/-- Witness of C21: the single endpoint `https://a.example/verify`. -/
theorem cursor_valid_iff_five_witness :
    (5 ≤ [str "https://a.example/verify"].length → ∀ N : Nat,
      (singleEndpointAuthenticator.rotateTimes N).currentEndpointIndex
        < (singleEndpointAuthenticator.rotateTimes N).endpoints.length ∧
      ∃ endpoint, (singleEndpointAuthenticator.rotateTimes N).GetCurrentEndpoint
        = .ok endpoint) ∧
    ([str "https://a.example/verify"].length < 5 →
      (singleEndpointAuthenticator.rotateTimes
        [str "https://a.example/verify"].length).currentEndpointIndex
        = [str "https://a.example/verify"].length ∧
      (singleEndpointAuthenticator.rotateTimes
        [str "https://a.example/verify"].length).endpoints.length
        = [str "https://a.example/verify"].length ∧
      (singleEndpointAuthenticator.rotateTimes
        ([str "https://a.example/verify"].length - 1)).rotateEndpoint.2
        = .error (.indexOutOfRange [str "https://a.example/verify"].length
            [str "https://a.example/verify"].length) ∧
      (singleEndpointAuthenticator.rotateTimes
        [str "https://a.example/verify"].length).GetCurrentEndpoint
        = .error (.indexOutOfRange [str "https://a.example/verify"].length
            [str "https://a.example/verify"].length)) :=
  cursor_valid_iff_five [str "https://a.example/verify"] singleEndpointAuthenticator
    (by decide)

end yubikeyotp
